import Mathlib

/-!
Verification of the spark-dataflint SQL-plan enrichment engine
(`src/spark-ui/src/reducers/SparkSlice.ts`, which bundles the Redux slice and
the SQL reducer).  The TypeScript functions `cleanUpDAG`, `parseNodePlan`,
`getMetricDuration`, `calculateSql`, `calculateSqls`, `calculateSqlStore`,
`calcExchangeMetrics`, `calcBroadcastExchangeDuration`, `calcCodegenDuration`,
`updateNodeMetrics`, `addFilterRatioMetric`, `addCrossJoinFilterRatioMetric`
and `addJoinMetrics` are embedded as executable Lean definitions.  Helpers the
reducer imports from modules that are not part of the sources (graph utilities,
format utilities, node-classification tables, the individual plan parsers) are
modelled from the specification; each such definition carries a
`Modelled from the spec:` doc comment.

Conventions of the embedding:
* JavaScript numbers are modelled as `ℚ`; a possibly-NaN number is `Jnum`,
  that is `Option ℚ`, with `none` standing for NaN (NaN propagates through
  `jadd` exactly as it does through JS addition).
* Node ids are `Nat`; the `toString`/`parseInt` round-trips the reducer
  applies to graph keys are identity on naturals and are elided.
* Exceptions are modelled with `Option`: a function that can throw returns
  `none` on the throwing input (the only throwing statement in the embedded
  code is the forced-output assignment in `calculateSql`).
* `uuidv4()` is modelled as an injected identity generator, as §9 of the spec
  demands: `calculateSql` receives the next fresh token `gen` and uses
  `gen` and `gen + 1` for `uniqueId` and `metricUpdateId`; callers thread the
  counter, advancing it by two per materialization.
-/

-- The library marks the rational operations irreducible; concrete witnesses
-- below evaluate them, so they are made unfoldable for this file.
attribute [local semireducible] Rat.mul Rat.add Rat.sub Rat.inv Rat.ofScientific

/-- Substring occurrence over character lists. -/
def listIncludes (s pat : List Char) : Bool :=
  match s with
  | [] => pat.isEmpty
  | _ :: rest => pat.isPrefixOf s || listIncludes rest pat

/-- JS string `includes`: `true` iff `pat` occurs as a substring of `s`
(the reducer never calls it with an empty pattern). -/
def strIncludes (s pat : String) : Bool :=
  listIncludes s.toList pat.toList

/-- First-occurrence replacement over character lists. -/
def replaceFirstAux (s pat rep : List Char) : List Char :=
  match s with
  | [] => []
  | c :: rest =>
    if pat.isPrefixOf (c :: rest) then rep ++ (c :: rest).drop pat.length
    else c :: replaceFirstAux rest pat rep

/-- JS `String.prototype.replace` with a string pattern: replaces the first
occurrence only. -/
def replaceFirst (s pat rep : String) : String :=
  String.mk (replaceFirstAux s.toList pat.toList rep.toList)

/-- Strips leading and trailing whitespace (JS-style `trim` on the character
list level). -/
def trimChars (l : List Char) : List Char :=
  ((l.dropWhile Char.isWhitespace).reverse.dropWhile Char.isWhitespace).reverse

/-- `value.replace(/,/g, "")`: strips every comma (thousands separators). -/
def stripCommas (s : String) : String :=
  String.mk (s.toList.filter (fun c => c != ','))

/-- Digits-to-number accumulator for the decimal parsers. -/
def digitsToNat (l : List Char) : Nat :=
  l.foldl (fun a c => a * 10 + (c.toNat - 48)) 0

/-- Reads a leading decimal literal (digits with an optional fractional part)
off a character list, returning the value and the unconsumed rest; `none` when
the text does not start with a digit (JS `parseFloat` returning NaN). -/
def parseDecimal (l : List Char) : Option (ℚ × List Char) :=
  let intPart := l.takeWhile (fun c => c.isDigit)
  if intPart.isEmpty then none
  else
    let rest := l.drop intPart.length
    match rest with
    | '.' :: r =>
      let frac := r.takeWhile (fun c => c.isDigit)
      some ((digitsToNat intPart : ℚ) + (digitsToNat frac : ℚ) / ((10 : ℚ) ^ frac.length),
            r.drop frac.length)
    | _ => some ((digitsToNat intPart : ℚ), rest)

/-- JS `parseFloat` (after the caller has stripped separators): the leading
decimal literal, `none` for NaN. -/
def parseNumQ (s : String) : Option ℚ :=
  (parseDecimal s.toList).map (fun p => p.1)

/-- JS `parseInt`: the leading run of digits, `none` for NaN. -/
def parseIntNat (s : String) : Option Nat :=
  let d := s.toList.takeWhile (fun c => c.isDigit)
  if d.isEmpty then none else some (digitsToNat d)

/-- Zero-pads a digit string on the left to `f` characters. -/
def padZeros (f : Nat) (s : String) : String :=
  String.mk (List.replicate (f - s.length) '0') ++ s

/-- JS `Number.prototype.toFixed` on exact rationals: with `x = |q|`, the
integer `n` minimizing the distance of `n / 10^f` to `x` (ties to the larger
`n`), printed with `f` fractional digits and the sign of `q`. -/
def toFixed (f : Nat) (q : ℚ) : String :=
  let sign := if q < 0 then "-" else ""
  let n : Nat := (|q| * (10 : ℚ) ^ f + 1 / 2).floor.toNat
  let base : Nat := 10 ^ f
  if f = 0 then sign ++ toString (n / base)
  else sign ++ toString (n / base) ++ "." ++ padZeros f (toString (n % base))

/-- A JS number that may be NaN: `none` is NaN. -/
abbrev Jnum := Option ℚ

/-- JS addition on possibly-NaN numbers: NaN absorbs. -/
def jadd : Jnum → Jnum → Jnum
  | some a, some b => some (a + b)
  | _, _ => none

/-- Modelled from the spec: `calculatePercentage` (FormatUtils, not under
src/).  §4.5/§7: the percentage `part / total × 100`, with a zero total
yielding `0` rather than an error. -/
def calculatePercentage (part total : ℚ) : ℚ :=
  if total = 0 then 0 else part / total * 100

/-- Modelled from the spec: `timeStringToMilliseconds` (FormatUtils, not under
src/).  §4.2's shared duration normalizer: a decimal number with an optional
embedded unit (`ms`, `s`, `m`, `h`), tolerating thousands separators;
malformed text is the NaN sentinel of §7. -/
def timeStringToMilliseconds (s : String) : Jnum :=
  match parseDecimal (trimChars (stripCommas s).toList) with
  | none => none
  | some (q, rest) =>
    match String.mk (trimChars rest) with
    | "" => some q
    | "ms" => some q
    | "s" => some (q * 1000)
    | "m" => some (q * 60000)
    | "h" => some (q * 3600000)
    | _ => none

/-- Modelled from the spec: `extractTotalFromStatisticsMetric`
(SqlReducerUtils, not under src/).  The spec does not constrain it beyond
feeding the duration normalizer; statistics metrics put the total first, so it
is modelled as the text up to the first line break. -/
def extractTotalFromStatisticsMetric (value : String) : String :=
  String.mk (value.toList.takeWhile (fun c => c != '\n'))

/-- Modelled from the spec: `timeStrToEpocTime` (FormatUtils, not under
src/): parses a submission-time string to an epoch number; nothing in the
claims depends on its value, so it is modelled as the leading decimal (0 when
absent). -/
def timeStrToEpocTime (s : String) : ℚ :=
  (parseNumQ s).getD 0

/-- The coarse operator category of §3/§4.1. -/
inductive NodeType
  | input
  | output
  | join
  | transformation
  | other
deriving DecidableEq

/-- Status of a SQL execution (interfaces/SparkSQLs, values compared with
`SqlStatus.Completed.valueOf()` etc. in the reducer). -/
inductive SqlStatus
  | Running
  | Completed
  | Failed
deriving DecidableEq

/-- One raw metric entry `{name, value}`. -/
structure EnrichedSqlMetric where
  name : String
  value : String
deriving DecidableEq

/-- A directed plan edge `{fromId, toId}`. -/
structure EnrichedSqlEdge where
  fromId : Nat
  toId : Nat
deriving DecidableEq

/-- Exchange read/write duration split computed by `calcExchangeMetrics`. -/
structure ExchangeMetrics where
  writeDuration : Jnum
  readDuration : Jnum
  duration : Jnum
deriving DecidableEq

/-- Engine-commit metadata attached to the output node
(interfaces/IcebergInfo; only the execution id is consulted by the reducer). -/
structure IcebergCommitsInfo where
  executionId : Nat
deriving DecidableEq

/-- The commit-metadata container passed to `calculateSqlStore`. -/
structure IcebergInfo where
  commitsInfo : List IcebergCommitsInfo
deriving DecidableEq

/-- Modelled from the spec: the per-operator parser payloads (PlanParsers/,
not under src/).  §4.2: each parser extracts operator-specific substrings from
the plan-description text.  No claim constrains the extracted fields, so each
payload is modelled as carrying the description text it was given (for
`parseFileScan` also the node name, mirroring its two-argument signature). -/
structure HashAggregatePlanPayload where
  raw : String
deriving DecidableEq

structure TakeOrderedAndProjectPlanPayload where
  raw : String
deriving DecidableEq

structure CollectLimitPlanPayload where
  raw : String
deriving DecidableEq

structure CoalescePlanPayload where
  raw : String
deriving DecidableEq

structure WriteToHDFSPlanPayload where
  raw : String
deriving DecidableEq

structure FilterPlanPayload where
  condition : String
deriving DecidableEq

structure ExchangePlanPayload where
  partitioning : String
deriving DecidableEq

structure ProjectPlanPayload where
  fields : String
deriving DecidableEq

structure SortPlanPayload where
  fields : String
deriving DecidableEq

structure WindowPlanPayload where
  raw : String
deriving DecidableEq

structure FileScanPlanPayload where
  raw : String
  scanNodeName : String
deriving DecidableEq

structure JoinPlanPayload where
  raw : String
deriving DecidableEq

/-- Modelled from the spec: `parseHashAggregate` (PlanParsers, not under
src/); see the payload comment above. -/
def parseHashAggregate (s : String) : HashAggregatePlanPayload := ⟨s⟩

/-- Modelled from the spec: `parseTakeOrderedAndProject` (PlanParsers, not
under src/). -/
def parseTakeOrderedAndProject (s : String) : TakeOrderedAndProjectPlanPayload := ⟨s⟩

/-- Modelled from the spec: `parseCollectLimit` (PlanParsers, not under
src/). -/
def parseCollectLimit (s : String) : CollectLimitPlanPayload := ⟨s⟩

/-- Modelled from the spec: `parseCoalesce` (PlanParsers, not under src/). -/
def parseCoalesce (s : String) : CoalescePlanPayload := ⟨s⟩

/-- Modelled from the spec: `parseWriteToHDFS` (PlanParsers, not under
src/). -/
def parseWriteToHDFS (s : String) : WriteToHDFSPlanPayload := ⟨s⟩

/-- Modelled from the spec: `parseFilter` (PlanParsers, not under src/);
§4.2: extracts the predicate substring. -/
def parseFilter (s : String) : FilterPlanPayload := ⟨s⟩

/-- Modelled from the spec: `parseExchange` (PlanParsers, not under src/);
§4.2: extracts the partitioning expression. -/
def parseExchange (s : String) : ExchangePlanPayload := ⟨s⟩

/-- Modelled from the spec: `parseProject` (PlanParsers, not under src/). -/
def parseProject (s : String) : ProjectPlanPayload := ⟨s⟩

/-- Modelled from the spec: `parseSort` (PlanParsers, not under src/). -/
def parseSort (s : String) : SortPlanPayload := ⟨s⟩

/-- Modelled from the spec: `parseWindow` (PlanParsers, not under src/). -/
def parseWindow (s : String) : WindowPlanPayload := ⟨s⟩

/-- Modelled from the spec: `parseFileScan` (PlanParsers, not under src/);
takes the description and the node name. -/
def parseFileScan (s nodeName : String) : FileScanPlanPayload := ⟨s, nodeName⟩

/-- Modelled from the spec: `parseJoin` (PlanParsers, not under src/);
§4.2: extracts join type and key expressions. -/
def parseJoin (s : String) : JoinPlanPayload := ⟨s⟩

/-- The tagged union of parsed plans (§3); one variant per `type` tag the
reducer's `parseNodePlan` can produce. -/
inductive ParsedNodePlan
  | hashAggregate (plan : HashAggregatePlanPayload)
  | takeOrderedAndProject (plan : TakeOrderedAndProjectPlanPayload)
  | collectLimit (plan : CollectLimitPlanPayload)
  | coalesce (plan : CoalescePlanPayload)
  | writeToHDFS (plan : WriteToHDFSPlanPayload)
  | filterPlan (plan : FilterPlanPayload)
  | exchange (plan : ExchangePlanPayload)
  | project (plan : ProjectPlanPayload)
  | sortPlan (plan : SortPlanPayload)
  | window (plan : WindowPlanPayload)
  | fileScan (plan : FileScanPlanPayload)
  | join (plan : JoinPlanPayload)
deriving DecidableEq

/-- An operator node of a query execution plan; raw snapshot nodes and
enriched nodes share this shape (the reducer casts `SparkSQL` to
`EnrichedSparkSQL` and fills the enrichment fields in), with the fields the
enrichment passes assign carrying defaults until they are computed. -/
structure EnrichedSqlNode where
  nodeId : Nat := 0
  nodeName : String := ""
  metrics : List EnrichedSqlMetric := []
  type : NodeType := .other
  parsedPlan : Option ParsedNodePlan := none
  enrichedName : String := ""
  isCodegenNode : Bool := false
  wholeStageCodegenId : Option Nat := none
  rddScopeId : Option Nat := none
  icebergCommit : Option IcebergCommitsInfo := none
  exchangeMetrics : Option ExchangeMetrics := none
  exchangeBroadcastDuration : Option Jnum := none
  codegenDuration : Option Jnum := none
deriving DecidableEq

/-- One tier of the contraction filters: visible node ids plus the contracted
edges among them. -/
structure SqlFilterData where
  nodesIds : List Nat := []
  edges : List EnrichedSqlEdge := []
deriving DecidableEq

/-- The three contraction tiers of an execution. -/
structure SqlNodesFilters where
  io : SqlFilterData := {}
  basic : SqlFilterData := {}
  advanced : SqlFilterData := {}
deriving DecidableEq

/-- A SQL execution.  Raw snapshots (`SparkSQL`) and enriched store entries
(`EnrichedSparkSQL`) share this record, mirroring the TypeScript cast
`sql as EnrichedSparkSQL`; ids are naturals (the reducer always compares them
through `parseInt`). -/
structure EnrichedSparkSQL where
  id : Nat := 0
  status : SqlStatus := .Running
  duration : ℚ := 0
  submissionTime : String := ""
  runningJobIds : List Nat := []
  failedJobIds : List Nat := []
  successJobIds : List Nat := []
  nodes : List EnrichedSqlNode := []
  edges : List EnrichedSqlEdge := []
  codegenNodes : List EnrichedSqlNode := []
  filters : SqlNodesFilters := {}
  uniqueId : Nat := 0
  metricUpdateId : Nat := 0
  isSqlCommand : Bool := false
  originalNumOfNodes : Nat := 0
  submissionTimeEpoc : ℚ := 0
deriving DecidableEq

/-- A raw snapshot execution has the same shape as an enriched one. -/
abbrev SparkSQL := EnrichedSparkSQL

/-- The id-ordered store of enriched executions. -/
structure SparkSQLStore where
  sqls : List EnrichedSparkSQL
deriving DecidableEq

/-- A node's plan description within a `SQLPlan`. -/
structure SQLNodePlan where
  id : Nat
  planDescription : String
  rddScopeId : Option Nat := none
deriving DecidableEq

/-- The plan-description bundle for one execution id. -/
structure SQLPlan where
  executionId : Nat
  nodesPlan : List SQLNodePlan
deriving DecidableEq

/-- The stage store is passed through `calculateSqlStore` and `calculateSql`
but never read by any embedded function, so its contents are not modelled. -/
abbrev SparkStagesStore := Unit

/-- Modelled from the spec: the directed graph value built by `generateGraph`
(PlanGraphUtils, not under src/), with the §4.3 contract — `inEdges`,
`outEdges`, `removeNode`, `setEdge`, enumerate all edges — given graphlib
semantics: nodes and edges are kept in insertion order, `setEdge`
auto-inserts missing endpoints and deduplicates, `removeNode` also drops the
incident edges, and `inEdges`/`outEdges` are `undefined` (here `none`) on an
absent node.  Keys are node ids (`Nat`, see the header note on
`toString`/`parseInt`); an edge is the pair (source, target). -/
structure Graph where
  nodes : List Nat
  edges : List (Nat × Nat)
deriving DecidableEq

/-- graphlib `setNode`: inserts the node if absent. -/
def Graph.setNode (g : Graph) (v : Nat) : Graph :=
  if g.nodes.contains v then g else { g with nodes := g.nodes ++ [v] }

/-- graphlib `setEdge`: inserts both endpoints, then the edge if absent. -/
def Graph.setEdge (g : Graph) (v w : Nat) : Graph :=
  let g := (g.setNode v).setNode w
  if g.edges.contains (v, w) then g else { g with edges := g.edges ++ [(v, w)] }

/-- graphlib `removeNode`: drops the node and every incident edge. -/
def Graph.removeNode (g : Graph) (v : Nat) : Graph :=
  { nodes := g.nodes.filter (fun n => n != v),
    edges := g.edges.filter (fun e => e.1 != v && e.2 != v) }

/-- graphlib `inEdges`: the edges into `v`, `none` when `v` is absent. -/
def Graph.inEdges (g : Graph) (v : Nat) : Option (List (Nat × Nat)) :=
  if g.nodes.contains v then some (g.edges.filter (fun e => e.2 == v)) else none

/-- graphlib `outEdges`: the edges out of `v`, `none` when `v` is absent. -/
def Graph.outEdges (g : Graph) (v : Nat) : Option (List (Nat × Nat)) :=
  if g.nodes.contains v then some (g.edges.filter (fun e => e.1 == v)) else none

/-- Modelled from the spec: `generateGraph` (PlanGraphUtils, not under src/);
§4.3: builds the graph fresh from the node and edge lists. -/
def generateGraph (edges : List EnrichedSqlEdge) (nodes : List EnrichedSqlNode) : Graph :=
  let g := nodes.foldl (fun g n => g.setNode n.nodeId) ⟨[], []⟩
  edges.foldl (fun g e => g.setEdge e.fromId e.toId) g

/-- The body of `cleanUpDAG`'s `forEach` over one non-visible node: skip it
when it has no in-edge list or no outgoing edge, otherwise rewire every
incoming edge's source to the target of the first outgoing edge and delete
the node. -/
def cleanUpStep (g : Graph) (node : EnrichedSqlNode) : Graph :=
  match g.inEdges node.nodeId with
  | none => g
  | some inEdges =>
    match g.outEdges node.nodeId with
    | none => g
    | some [] => g
    | some (target :: _) =>
      let g := inEdges.foldl (fun h inEdge => h.setEdge inEdge.1 target.2) g
      g.removeNode node.nodeId

/-- The graph left after `cleanUpDAG` has processed every non-visible node
(the state of `g` just before the final edge enumeration). -/
def cleanUpContractedGraph (edges : List EnrichedSqlEdge) (allNodes visibleNodes : List EnrichedSqlNode) :
    Graph :=
  let g := generateGraph edges allNodes
  let visibleNodesIds := visibleNodes.map (fun node => node.nodeId)
  let notVisibleNodes := allNodes.filter (fun node => !(visibleNodesIds.contains node.nodeId))
  notVisibleNodes.foldl cleanUpStep g

/-- `cleanUpDAG(edges, allNodes, visibleNodes)`: contract the invisible nodes,
read the surviving edges back and drop any residual edge with an endpoint
outside the visible set. -/
def cleanUpDAG (edges : List EnrichedSqlEdge) (allNodes visibleNodes : List EnrichedSqlNode) :
    List EnrichedSqlEdge :=
  let g := cleanUpContractedGraph edges allNodes visibleNodes
  let visibleNodesIds := visibleNodes.map (fun node => node.nodeId)
  let filteredEdges : List EnrichedSqlEdge :=
    g.edges.map (fun edge => { fromId := edge.1, toId := edge.2 })
  filteredEdges.filter
    (fun edge => visibleNodesIds.contains edge.toId && visibleNodesIds.contains edge.fromId)

/-- Modelled from the spec: `calcNodeType` (SqlReducerUtils, not under src/).
§4.1: a deterministic, pure string-pattern mapping in which accelerated-engine
aliases classify like the canonical operator; a name containing "Scan"
classifies as input unless a more specific rule matches, a name containing
"Join" classifies as join, write commands classify as output, the common
relational operators classify as transformation and anything unrecognized as
other.  The claims only condition on the computed categories, so the exact
dictionary beyond these spec rules is immaterial. -/
def calcNodeType (name : String) : NodeType :=
  let canonical :=
    ((replaceFirst (replaceFirst (replaceFirst name "Photon" "") "Gpu" "") "Comet" ""))
  if name == "Execute InsertIntoHadoopFsRelationCommand" || strIncludes name "WriteFiles"
      || strIncludes name "AppendData" || strIncludes name "OverwriteByExpression" then
    .output
  else if strIncludes name "Join" || canonical == "BroadcastNestedLoopJoin"
      || canonical == "CartesianProduct" then
    .join
  else if strIncludes name "Scan" then
    .input
  else if canonical == "Filter" || canonical == "Project" || canonical == "Sort"
      || canonical == "Window" || canonical == "HashAggregate" || canonical == "GroupingAgg"
      || canonical == "Exchange" || canonical == "ColumnarExchange" || canonical == "Coalesce"
      || canonical == "TakeOrderedAndProject" || canonical == "CollectLimit"
      || canonical == "Expand" || canonical == "Generate" then
    .transformation
  else
    .other

/-- Modelled from the spec: `nodeEnrichedNameBuilder` (SqlReducerUtils, not
under src/).  §4.1: maps a raw operator name (including accelerated-engine
aliases) to a normalized display name, delegating to the parsed plan when one
is available; modelled as stripping the accelerator alias markers.  No claim
constrains its value — the enrichment only ever compares the stored
`enrichedName` field with "Distinct". -/
def nodeEnrichedNameBuilder (name : String) (_ : Option ParsedNodePlan) : String :=
  replaceFirst (replaceFirst (replaceFirst name "Photon" "") "Gpu" "") "Comet" ""

/-- `parseNodePlan(node, plan)`: dispatch on the node name to the per-operator
parser.  The TypeScript `switch` falls through grouped case labels in source
order, so the second "CometFilter" label (inside the Project group) is dead;
the embedding preserves the order as an if-chain.  The modelled parsers are
total, so the try/catch around the dispatch has no failing path here. -/
def parseNodePlan (node : EnrichedSqlNode) (plan : SQLNodePlan) : Option ParsedNodePlan :=
  if node.nodeName == "PhotonGroupingAgg" || node.nodeName == "GpuHashAggregate"
      || node.nodeName == "!CometGpuHashAggregate" || node.nodeName == "HashAggregate" then
    some (.hashAggregate (parseHashAggregate plan.planDescription))
  else if node.nodeName == "TakeOrderedAndProject" then
    some (.takeOrderedAndProject (parseTakeOrderedAndProject plan.planDescription))
  else if node.nodeName == "CollectLimit" then
    some (.collectLimit (parseCollectLimit plan.planDescription))
  else if node.nodeName == "Coalesce" then
    some (.coalesce (parseCoalesce plan.planDescription))
  else if node.nodeName == "Execute InsertIntoHadoopFsRelationCommand" then
    some (.writeToHDFS (parseWriteToHDFS plan.planDescription))
  else if node.nodeName == "PhotonFilter" || node.nodeName == "GpuFilter"
      || node.nodeName == "CometFilter" || node.nodeName == "Filter" then
    some (.filterPlan (parseFilter plan.planDescription))
  else if node.nodeName == "Exchange" || node.nodeName == "CometExchange"
      || node.nodeName == "CometColumnarExchange" || node.nodeName == "GpuColumnarExchange" then
    some (.exchange (parseExchange plan.planDescription))
  else if node.nodeName == "PhotonProject" || node.nodeName == "GpuProject"
      || node.nodeName == "CometFilter" || node.nodeName == "Project" then
    some (.project (parseProject plan.planDescription))
  else if node.nodeName == "GpuSort" || node.nodeName == "CometSort"
      || node.nodeName == "Sort" then
    some (.sortPlan (parseSort plan.planDescription))
  else if node.nodeName == "Window" then
    some (.window (parseWindow plan.planDescription))
  else if strIncludes node.nodeName "Scan" then
    some (.fileScan (parseFileScan plan.planDescription node.nodeName))
  else if strIncludes node.nodeName "Join" then
    some (.join (parseJoin plan.planDescription))
  else
    none

/-- `getMetricDuration(metricName, metrics)`: looks the metric up by exact
name (`undefined`, i.e. outer `none`, when absent), extracts the total from a
statistics-formatted value and normalizes it to milliseconds (inner `none` is
the NaN of a malformed value). -/
def getMetricDuration (metricName : String) (metrics : List EnrichedSqlMetric) :
    Option Jnum :=
  (metrics.find? (fun metric => metric.name == metricName)).map
    (fun m => timeStringToMilliseconds (extractTotalFromStatisticsMetric m.value))

/-- `calcCodegenDuration(metrics)`: the "duration" metric. -/
def calcCodegenDuration (metrics : List EnrichedSqlMetric) : Option Jnum :=
  getMetricDuration "duration" metrics

/-- `calcExchangeMetrics(nodeName, metrics)`: only for nodes literally named
"Exchange"; write duration from the shuffle-write-time metric, read duration
as the sum of the three fetch/remote-request metrics, each defaulting to 0
when absent, and total duration their sum. -/
def calcExchangeMetrics (nodeName : String) (metrics : List EnrichedSqlMetric) :
    Option ExchangeMetrics :=
  if nodeName == "Exchange" then
    let writeDuration := (getMetricDuration "shuffle write time" metrics).getD (some 0)
    let readDuration :=
      jadd (jadd ((getMetricDuration "fetch wait time" metrics).getD (some 0))
                 ((getMetricDuration "remote reqs duration" metrics).getD (some 0)))
           ((getMetricDuration "remote merged reqs duration" metrics).getD (some 0))
    some { writeDuration := writeDuration,
           readDuration := readDuration,
           duration := jadd writeDuration readDuration }
  else
    none

/-- `calcBroadcastExchangeDuration(nodeName, metrics)`: only for
"BroadcastExchange" nodes; the source computes the build/collect components in
a discarded expression statement (a leading unary plus), so only the
broadcast-time metric reaches the returned value. -/
def calcBroadcastExchangeDuration (nodeName : String) (metrics : List EnrichedSqlMetric) :
    Option Jnum :=
  if nodeName == "BroadcastExchange" then
    some ((getMetricDuration "time to broadcast" metrics).getD (some 0))
  else
    none

/-- Modelled from the spec: `getRowsFromMetrics` (PlanGraphUtils, not under
src/): reads a node's row-count metric — the first metric whose name contains
"rows" — tolerating thousands separators, `null` when absent or malformed.
This mirrors the inline output-rows lookup `addFilterRatioMetric` performs in
the sources. -/
def getRowsFromMetrics (metrics : List EnrichedSqlMetric) : Option ℚ :=
  (metrics.find? (fun m => strIncludes m.name "rows")).bind
    (fun m => parseNumQ (stripCommas m.value))

/-- Fuel-bounded upstream walk used by `findLastNodeWithInputRows`. -/
def findUpstreamRows (fuel : Nat) (node : EnrichedSqlNode) (graph : Graph)
    (allNodes : List EnrichedSqlNode) : Option EnrichedSqlNode :=
  match fuel with
  | 0 => none
  | fuel + 1 =>
    match graph.inEdges node.nodeId with
    | none => none
    | some [] => none
    | some (edge :: _) =>
      match allNodes.find? (fun n => n.nodeId == edge.1) with
      | none => none
      | some pred =>
        match getRowsFromMetrics pred.metrics with
        | some _ => some pred
        | none => findUpstreamRows fuel pred graph allNodes

/-- Modelled from the spec: `findLastNodeWithInputRows` (PlanGraphUtils, not
under src/).  §4.5's upstream-row-count helper: starting from the node's
predecessors, follow the designated (first-in-edge) predecessor chain until a
node exposing a row-count metric is found or the graph boundary is reached,
`null` when none is found; bounded by the total node count so a malformed
graph cannot make it loop. -/
def findLastNodeWithInputRows (node : EnrichedSqlNode) (graph : Graph)
    (allNodes : List EnrichedSqlNode) : Option EnrichedSqlNode :=
  findUpstreamRows allNodes.length node graph allNodes

/-- Modelled from the spec: `calcNodeMetrics` (SqlReducerUtils, not under
src/).  §4.5's enrichment contract returns the raw metrics plus derived
metrics "never mutating rawMetrics", so the base metric update is modelled as
the identity on the metric list (the node type argument is unused). -/
def calcNodeMetrics (_ : NodeType) (metrics : List EnrichedSqlMetric) :
    List EnrichedSqlMetric :=
  metrics

/-- `addFilterRatioMetric(node, updatedMetrics, graph, allNodes)`: for a node
whose name contains "Filter" or whose enriched name is "Distinct", derive
"Rows Filtered" from the nearest upstream row count and the node's own rows
metric; `null` when the input rows resolve to 0 or the node's own rows metric
is missing or malformed. -/
def addFilterRatioMetric (node : EnrichedSqlNode) (updatedMetrics : List EnrichedSqlMetric)
    (graph : Graph) (allNodes : List EnrichedSqlNode) : Option EnrichedSqlMetric :=
  if strIncludes node.nodeName "Filter" || node.enrichedName == "Distinct" then
    let inputRows : ℚ :=
      match findLastNodeWithInputRows node graph allNodes with
      | some inputNode =>
        match getRowsFromMetrics inputNode.metrics with
        | some foundInputRows => foundInputRows
        | none => 0
      | none => 0
    if inputRows == 0 then none
    else
      match updatedMetrics.find? (fun m => strIncludes m.name "rows") with
      | none => none
      | some outputRowsMetric =>
        match parseNumQ (stripCommas outputRowsMetric.value) with
        | none => none
        | some outputRows =>
          some { name := "Rows Filtered",
                 value := toFixed 2 (calculatePercentage (inputRows - outputRows) inputRows) ++ "%" }
  else
    none

/-- Prints a JS number that is an exact integer without a fractional part (the
only shape `addCrossJoinFilterRatioMetric` renders with `toString`). -/
def qToString (q : ℚ) : String :=
  if q.den = 1 then toString q.num else toString q.num ++ "/" ++ toString q.den

/-- `addCrossJoinFilterRatioMetric(node, updatedMetrics, graph, allNodes)`:
for `BroadcastNestedLoopJoin`/`CartesianProduct` with exactly two in-edges
whose source nodes expose row counts directly, emit the scanned-rows product
and the filtered percentage. -/
def addCrossJoinFilterRatioMetric (node : EnrichedSqlNode)
    (updatedMetrics : List EnrichedSqlMetric) (graph : Graph)
    (allNodes : List EnrichedSqlNode) : Option (List EnrichedSqlMetric) :=
  if node.nodeName == "BroadcastNestedLoopJoin" || node.nodeName == "CartesianProduct" then
    match graph.inEdges node.nodeId with
    | none => none
    | some inputEdges =>
      if inputEdges.length != 2 then none
      else
        let inputNodes := inputEdges.map (fun edge => allNodes.find? (fun n => n.nodeId == edge.1))
        match (inputNodes.map (fun n => n.bind (fun node => getRowsFromMetrics node.metrics))).filterMap id with
        | [rows0, rows1] =>
          match getRowsFromMetrics updatedMetrics with
          | none => none
          | some crossJoinRows =>
            let crossJoinScannedRows := rows0 * rows1
            some [{ name := "Cross Join Scanned Rows", value := qToString crossJoinScannedRows },
                  { name := "Rows Filtered",
                    value := toFixed 2 (100 - calculatePercentage crossJoinRows crossJoinScannedRows) ++ "%" }]
        | _ => none
  else
    none

/-- The row-resolution lambda `addJoinMetrics` maps over the join's input
edges: find the edge's source node, walk upstream to the nearest node exposing
a row count and read it; `null` when any step fails. -/
def resolveJoinInputRows (graph : Graph) (allNodes : List EnrichedSqlNode)
    (edge : Nat × Nat) : Option ℚ :=
  match allNodes.find? (fun n => n.nodeId == edge.1) with
  | none => none
  | some node =>
    match findLastNodeWithInputRows node graph allNodes with
    | none => none
    | some nodeWithRows => getRowsFromMetrics nodeWithRows.metrics

/-- `addJoinMetrics(node, updatedMetrics, graph, allNodes)`: for the three
equi-join operators with exactly two resolvable inputs, emit either the
"join rows increase ratio" (ratio > 1, one decimal, suffix "X") or the
"join rows filtered" percentage (two decimals, suffix "%"); a zero maximum
input row count yields ratio 0 rather than an error. -/
def addJoinMetrics (node : EnrichedSqlNode) (updatedMetrics : List EnrichedSqlMetric)
    (graph : Graph) (allNodes : List EnrichedSqlNode) : Option (List EnrichedSqlMetric) :=
  if node.nodeName == "BroadcastHashJoin" || node.nodeName == "SortMergeJoin"
      || node.nodeName == "ShuffleHashJoin" then
    match graph.inEdges node.nodeId with
    | none => none
    | some inputEdges =>
      if inputEdges.length != 2 then none
      else
        match (inputEdges.map (resolveJoinInputRows graph allNodes)).filterMap id with
        | [rows0, rows1] =>
          match getRowsFromMetrics updatedMetrics with
          | none => none
          | some joinOutputRows =>
            let maxInputRows := max rows0 rows1
            let joinRatio := if maxInputRows ≠ 0 then joinOutputRows / maxInputRows else 0
            if joinRatio > 1 then
              some [{ name := "join rows increase ratio", value := toFixed 1 joinRatio ++ "X" }]
            else
              some [{ name := "join rows filtered",
                      value := toFixed 2 (calculatePercentage joinOutputRows maxInputRows) ++ "%" }]
        | _ => none
  else
    none

/-- `updateNodeMetrics(node, metrics, graph, allNodes)`: the base metric
update followed by the three derived-metric enrichers, appended in order. -/
def updateNodeMetrics (node : EnrichedSqlNode) (metrics : List EnrichedSqlMetric)
    (graph : Graph) (allNodes : List EnrichedSqlNode) : List EnrichedSqlMetric :=
  let updatedOriginalMetrics := calcNodeMetrics node.type metrics
  let filterRatio := addFilterRatioMetric node updatedOriginalMetrics graph allNodes
  let crossJoinFilterRatio := addCrossJoinFilterRatioMetric node updatedOriginalMetrics graph allNodes
  let joinMetrics := addJoinMetrics node updatedOriginalMetrics graph allNodes
  updatedOriginalMetrics
    ++ (match filterRatio with | some m => [m] | none => [])
    ++ crossJoinFilterRatio.getD []
    ++ joinMetrics.getD []

/-- The codegen-id extraction inside `calculateSql`:
`parseInt(nodeName.replace("WholeStageCodegen (", "").replace(")", ""))`. -/
def extractCodegenId (nodeName : String) : Option Nat :=
  parseIntNat (replaceFirst (replaceFirst nodeName "WholeStageCodegen (" "") ")" "")

/-- The first mapping pass of `calculateSql`: classify each node, attach its
parsed plan, normalized name, codegen flags and (for the output node or a
single-node execution) the engine-commit metadata. -/
def typeEnrichedNodesOf (sql : SparkSQL) (plan : Option SQLPlan)
    (icebergCommit : Option IcebergCommitsInfo) : List EnrichedSqlNode :=
  sql.nodes.map (fun node =>
    let type := calcNodeType node.nodeName
    let nodePlan := plan.bind (fun p => p.nodesPlan.find? (fun planNode => planNode.id == node.nodeId))
    let parsedPlan := nodePlan.bind (fun np => parseNodePlan node np)
    let isCodegenNode := strIncludes node.nodeName "WholeStageCodegen"
    { node with
        rddScopeId := nodePlan.bind (fun np => np.rddScopeId)
        type := type
        parsedPlan := parsedPlan
        enrichedName := nodeEnrichedNameBuilder node.nodeName parsedPlan
        isCodegenNode := isCodegenNode
        wholeStageCodegenId :=
          if isCodegenNode then extractCodegenId node.nodeName else node.wholeStageCodegenId
        icebergCommit :=
          if type == NodeType.output || sql.nodes.length == 1 then icebergCommit else none })

/-- The forced-output step of `calculateSql`: when no non-codegen node
classifies as output, the last node after excluding the two AQE wrapper names
is reassigned to output.  The assignment mutates the shared node object, which
(node ids being unique within an execution, §3) is an id-targeted update of
the list; on an empty exclusion list the source dereferences `undefined` and
throws, modelled as `none`. -/
def forceOutputNodes (onlyGraphNodes : List EnrichedSqlNode) :
    Option (List EnrichedSqlNode) :=
  if (onlyGraphNodes.filter (fun node => node.type == NodeType.output)).length == 0 then
    let aqeFilteredNodes := onlyGraphNodes.filter
      (fun node => node.nodeName != "AdaptiveSparkPlan" && node.nodeName != "ResultQueryStage")
    match aqeFilteredNodes.getLast? with
    | none => none
    | some lastNode =>
      some (onlyGraphNodes.map (fun node =>
        if node.nodeId == lastNode.nodeId then { node with type := NodeType.output } else node))
  else
    some onlyGraphNodes

/-- `calculateSql(sql, plan, icebergCommit, stages)`: the full
classify + parse + force-output + enrich + contract pipeline producing an
enriched execution; `gen` is the injected fresh-identity token (see header),
assigned to `uniqueId` with `gen + 1` for `metricUpdateId`.  `none` models the
TypeError the source throws when the forced-output step finds no candidate
node. -/
def calculateSql (sql : SparkSQL) (plan : Option SQLPlan)
    (icebergCommit : Option IcebergCommitsInfo) (stages : SparkStagesStore) (gen : Nat) :
    Option EnrichedSparkSQL :=
  let enrichedSql := sql
  let originalNumOfNodes := enrichedSql.nodes.length
  let typeEnrichedNodes := typeEnrichedNodesOf sql plan icebergCommit
  let onlyCodeGenNodes := (typeEnrichedNodes.filter (fun node => node.isCodegenNode)).map
    (fun node => { node with codegenDuration := calcCodegenDuration node.metrics })
  let onlyGraphNodes := typeEnrichedNodes.filter (fun node => !node.isCodegenNode)
  match forceOutputNodes onlyGraphNodes with
  | none => none
  | some onlyGraphNodes =>
    let metricEnrichedNodes := onlyGraphNodes.map (fun node =>
      let exchangeMetrics := calcExchangeMetrics node.nodeName node.metrics
      let exchangeBroadcastDuration := calcBroadcastExchangeDuration node.nodeName node.metrics
      let graph := generateGraph enrichedSql.edges enrichedSql.nodes
      { node with
          metrics := updateNodeMetrics node node.metrics graph onlyGraphNodes
          exchangeMetrics := exchangeMetrics
          exchangeBroadcastDuration := exchangeBroadcastDuration })
    let ioNodes := onlyGraphNodes.filter (fun node =>
      node.type == NodeType.input || node.type == NodeType.output || node.type == NodeType.join)
    let basicNodes := onlyGraphNodes.filter (fun node =>
      node.type == NodeType.input || node.type == NodeType.output || node.type == NodeType.join
        || node.type == NodeType.transformation)
    let advancedNodes := onlyGraphNodes.filter (fun node => node.type != NodeType.other)
    let ioNodesIds := ioNodes.map (fun node => node.nodeId)
    let basicNodesIds := basicNodes.map (fun node => node.nodeId)
    let advancedNodesIds := advancedNodes.map (fun node => node.nodeId)
    let basicFilteredEdges := cleanUpDAG enrichedSql.edges onlyGraphNodes basicNodes
    let advancedFilteredEdges := cleanUpDAG enrichedSql.edges onlyGraphNodes advancedNodes
    let ioFilteredEdges := cleanUpDAG enrichedSql.edges onlyGraphNodes ioNodes
    let isSqlCommand := sql.runningJobIds.length == 0 && sql.failedJobIds.length == 0
      && sql.successJobIds.length == 0
    some { enrichedSql with
        nodes := metricEnrichedNodes
        codegenNodes := onlyCodeGenNodes
        filters :=
          { io := { nodesIds := ioNodesIds, edges := ioFilteredEdges }
            basic := { nodesIds := basicNodesIds, edges := basicFilteredEdges }
            advanced := { nodesIds := advancedNodesIds, edges := advancedFilteredEdges } }
        uniqueId := gen
        metricUpdateId := gen + 1
        isSqlCommand := isSqlCommand
        originalNumOfNodes := originalNumOfNodes
        submissionTimeEpoc := timeStrToEpocTime sql.submissionTime }

/-- `calculateSqls(sqls, plans, icebergInfo, stages)`: materialize every
snapshot in order, pairing each with its plan and commit metadata; threads the
identity generator (two tokens per materialization) and propagates a thrown
`calculateSql` as `none`. -/
def calculateSqls (sqls : List SparkSQL) (plans : List SQLPlan) (icebergInfo : IcebergInfo)
    (stages : SparkStagesStore) (gen : Nat) : Option (List EnrichedSparkSQL × Nat) :=
  sqls.foldlM (fun acc sql =>
    let plan := plans.find? (fun plan => plan.executionId == sql.id)
    let icebergCommit := icebergInfo.commitsInfo.find? (fun c => c.executionId == sql.id)
    (calculateSql sql plan icebergCommit stages acc.2).map
      (fun r => (acc.1 ++ [r], acc.2 + 2)))
    ([], gen)

/-- The body of `calculateSqlStore`'s for-loop for one id of the snapshot
batch: look the snapshot, the stored execution, the plan and the commit
metadata up, then apply the four merge cases (absent / new status terminal /
node count changed / metric-only update).  The accumulator carries the list
built so far and the identity-generator counter. -/
def processSqlId (store : SparkSQLStore) (sqls : List SparkSQL) (plans : List SQLPlan)
    (icebergInfo : IcebergInfo) (stages : SparkStagesStore)
    (acc : List EnrichedSparkSQL × Nat) (id : Nat) : Option (List EnrichedSparkSQL × Nat) :=
  match sqls.find? (fun existingSql => existingSql.id == id) with
  | none => none
  | some newSql =>
    let currentSql := store.sqls.find? (fun existingSql => existingSql.id == id)
    let plan := plans.find? (fun plan => plan.executionId == id)
    let icebergCommit := icebergInfo.commitsInfo.find? (fun plan => plan.executionId == id)
    match currentSql with
    | none =>
      (calculateSql newSql plan icebergCommit stages acc.2).map
        (fun r => (acc.1 ++ [r], acc.2 + 2))
    | some currentSql =>
      if newSql.status == SqlStatus.Completed || newSql.status == SqlStatus.Failed then
        (calculateSql newSql plan icebergCommit stages acc.2).map
          (fun r => (acc.1 ++ [r], acc.2 + 2))
      else if currentSql.originalNumOfNodes != newSql.nodes.length then
        (calculateSql newSql plan icebergCommit stages acc.2).map
          (fun r => (acc.1 ++ [r], acc.2 + 2))
      else
        some (acc.1 ++ [{ currentSql with
                            duration := newSql.duration
                            failedJobIds := newSql.failedJobIds
                            runningJobIds := newSql.runningJobIds
                            successJobIds := newSql.successJobIds }],
              acc.2)

/-- `calculateSqlStore(currentStore, sqls, plans, icebergInfo, stages)`: on an
undefined store, materialize everything; otherwise keep the stored executions
whose id is below the batch minimum (`parseInt(sql.id) < Math.min(...sqlIds)`,
which keeps everything when the batch is empty — encoded as the equivalent
bounded quantifier) and run the merge loop over the batch ids. -/
def calculateSqlStore (currentStore : Option SparkSQLStore) (sqls : List SparkSQL)
    (plans : List SQLPlan) (icebergInfo : IcebergInfo) (stages : SparkStagesStore)
    (gen : Nat) : Option SparkSQLStore :=
  match currentStore with
  | none => (calculateSqls sqls plans icebergInfo stages gen).map (fun r => ⟨r.1⟩)
  | some store =>
    let sqlIds := sqls.map (fun sql => sql.id)
    let updatedSqls := store.sqls.filter (fun sql => sqlIds.all (fun i => sql.id < i))
    (sqlIds.foldlM (processSqlId store sqls plans icebergInfo stages) (updatedSqls, gen)).map
      (fun r => ⟨r.1⟩)

/-! ### Concrete inputs used by the witnesses and counterexamples below -/

/-- A two-input equi-join demo plan: row sources 0 and 1 feed pass-through
exchanges 2 and 3, which feed the join node 4 (the §8 scenario with input row
counts 100 and 200). -/
def joinDemoNodes : List EnrichedSqlNode :=
  [{ nodeId := 0, nodeName := "Scan a", metrics := [⟨"number of output rows", "100"⟩] },
   { nodeId := 1, nodeName := "Scan b", metrics := [⟨"number of output rows", "200"⟩] },
   { nodeId := 2, nodeName := "Exchange" },
   { nodeId := 3, nodeName := "Exchange" },
   { nodeId := 4, nodeName := "SortMergeJoin", metrics := [⟨"number of output rows", "50"⟩] }]

/-- The edges of the join demo plan. -/
def joinDemoEdges : List EnrichedSqlEdge := [⟨0, 2⟩, ⟨1, 3⟩, ⟨2, 4⟩, ⟨3, 4⟩]

/-- The join node of the demo plan. -/
def joinDemoNode : EnrichedSqlNode :=
  { nodeId := 4, nodeName := "SortMergeJoin", metrics := [⟨"number of output rows", "50"⟩] }

/-- A scan exposing a row count, for the filter-ratio demos. -/
def filterDemoScan : EnrichedSqlNode :=
  { nodeId := 0, nodeName := "Scan parquet", metrics := [⟨"number of output rows", "1,000"⟩] }

/-- A filter node downstream of the demo scan, with its own row count. -/
def filterDemoNode : EnrichedSqlNode :=
  { nodeId := 1, nodeName := "Filter", metrics := [⟨"number of output rows", "900"⟩] }

/-- The scan feeding the filter. -/
def filterDemoNodes : List EnrichedSqlNode := [filterDemoScan, filterDemoNode]

/-- The single edge of the filter demo plan. -/
def filterDemoEdges : List EnrichedSqlEdge := [⟨0, 1⟩]

/-- A filter node that carries no metrics at all (so its own rows metric is
missing), placed in the same position as the demo filter. -/
def filterNoMetricsNode : EnrichedSqlNode := { nodeId := 1, nodeName := "Filter" }

/-- The demo plan with the metric-less filter in place of the demo filter. -/
def filterNoMetricsNodes : List EnrichedSqlNode := [filterDemoScan, filterNoMetricsNode]

/-- The raw snapshot node pair used by the store-merge demos: a scan and a
projection, neither classifying as output. -/
def snapshotDemoNodes : List EnrichedSqlNode :=
  [{ nodeId := 0, nodeName := "Scan csv" }, { nodeId := 1, nodeName := "Project" }]

/-- A stored execution that is already terminal. -/
def storedCompletedSql : EnrichedSparkSQL :=
  { id := 1, status := .Completed, duration := 5, uniqueId := 0, originalNumOfNodes := 2 }

/-- A later snapshot for the same id, still terminal, with a new duration. -/
def completedSnapshot : SparkSQL :=
  { id := 1, status := .Completed, duration := 9, nodes := snapshotDemoNodes, edges := [⟨0, 1⟩] }

/-- A stored running execution materialized from a one-node plan. -/
def storedRunningOneNodeSql : EnrichedSparkSQL :=
  { id := 1, status := .Running, duration := 5, uniqueId := 0, originalNumOfNodes := 1 }

/-- A running snapshot with two nodes and fresh volatile fields. -/
def runningSnapshot : SparkSQL :=
  { id := 1, status := .Running, duration := 9, runningJobIds := [7], successJobIds := [2],
    nodes := snapshotDemoNodes, edges := [⟨0, 1⟩] }

/-- A stored running execution whose node count matches the running
snapshot. -/
def storedRunningSameSql : EnrichedSparkSQL :=
  { id := 1, status := .Running, duration := 5, uniqueId := 0, originalNumOfNodes := 2,
    runningJobIds := [4] }

/-- The store returned for the terminal-snapshot demo, extracted through the
success proof of the run. -/
def c2OutStore : SparkSQLStore :=
  (calculateSqlStore (some ⟨[storedCompletedSql]⟩) [completedSnapshot] [] ⟨[]⟩ () 7).get
    (by decide)

/-- The store returned for the metric-only-update demo. -/
def c3OutStore : SparkSQLStore :=
  (calculateSqlStore (some ⟨[storedRunningSameSql]⟩) [runningSnapshot] [] ⟨[]⟩ () 7).get
    (by decide)

/-- The store returned for the structural-update demo. -/
def c4OutStore : SparkSQLStore :=
  (calculateSqlStore (some ⟨[storedRunningOneNodeSql]⟩) [runningSnapshot] [] ⟨[]⟩ () 7).get
    (by decide)

/-! ### Helper lemmas about the graph operations -/

theorem Graph.nodes_subset_setNode (g : Graph) (v x : Nat) (h : x ∈ g.nodes) :
    x ∈ (g.setNode v).nodes := by
  unfold Graph.setNode
  split
  · exact h
  · exact List.mem_append_left _ h

theorem Graph.mem_nodes_setNode_self (g : Graph) (v : Nat) : v ∈ (g.setNode v).nodes := by
  unfold Graph.setNode
  split
  · next hc => exact List.elem_iff.mp hc
  · exact List.mem_append_right _ (List.mem_singleton.mpr rfl)

theorem Graph.nodes_subset_setEdge (g : Graph) (v w x : Nat) (h : x ∈ g.nodes) :
    x ∈ (g.setEdge v w).nodes := by
  simp only [Graph.setEdge]
  split
  · exact Graph.nodes_subset_setNode _ _ _ (Graph.nodes_subset_setNode _ _ _ h)
  · exact Graph.nodes_subset_setNode _ _ _ (Graph.nodes_subset_setNode _ _ _ h)

theorem Graph.edges_setNode (g : Graph) (v : Nat) : (g.setNode v).edges = g.edges := by
  unfold Graph.setNode
  split <;> rfl

theorem Graph.mem_edges_setEdge_self (g : Graph) (v w : Nat) :
    (v, w) ∈ (g.setEdge v w).edges := by
  simp only [Graph.setEdge]
  split
  · next hc =>
    rw [Graph.edges_setNode, Graph.edges_setNode] at hc ⊢
    exact List.elem_iff.mp hc
  · exact List.mem_append_right _ (List.mem_singleton.mpr rfl)

theorem Graph.edges_subset_setEdge (g : Graph) (v w : Nat) (e : Nat × Nat)
    (h : e ∈ g.edges) : e ∈ (g.setEdge v w).edges := by
  simp only [Graph.setEdge]
  split
  · next => rw [Graph.edges_setNode, Graph.edges_setNode]; exact h
  · next =>
    rw [Graph.edges_setNode, Graph.edges_setNode] at *
    exact List.mem_append_left _ h

theorem Graph.mem_edges_of_setEdge (g : Graph) (v w : Nat) (e : Nat × Nat)
    (h : e ∈ (g.setEdge v w).edges) : e ∈ g.edges ∨ e = (v, w) := by
  simp only [Graph.setEdge] at h
  split at h
  · next => rw [Graph.edges_setNode, Graph.edges_setNode] at h; exact Or.inl h
  · next =>
    rw [Graph.edges_setNode, Graph.edges_setNode] at h
    rcases List.mem_append.mp h with h | h
    · exact Or.inl h
    · exact Or.inr (List.mem_singleton.mp h)

theorem Graph.nodes_removeNode (g : Graph) (v x : Nat) (hx : x ≠ v) (h : x ∈ g.nodes) :
    x ∈ (g.removeNode v).nodes := by
  unfold Graph.removeNode
  exact List.mem_filter.mpr ⟨h, by simpa using hx⟩

theorem Graph.not_mem_nodes_removeNode_self (g : Graph) (v : Nat) :
    v ∉ (g.removeNode v).nodes := by
  unfold Graph.removeNode
  intro h
  have := (List.mem_filter.mp h).2
  simp at this

theorem Graph.edges_subset_removeNode (g : Graph) (v : Nat) (e : Nat × Nat)
    (h : e ∈ (g.removeNode v).edges) : e ∈ g.edges := by
  unfold Graph.removeNode at h
  exact (List.mem_filter.mp h).1

theorem Graph.mem_edges_removeNode (g : Graph) (v : Nat) (e : Nat × Nat)
    (h : e ∈ g.edges) (h1 : e.1 ≠ v) (h2 : e.2 ≠ v) : e ∈ (g.removeNode v).edges := by
  unfold Graph.removeNode
  refine List.mem_filter.mpr ⟨h, ?_⟩
  simp [h1, h2]

theorem nodes_subset_foldl_setEdge (l : List (Nat × Nat)) (t : Nat) (g : Graph) (x : Nat)
    (h : x ∈ g.nodes) :
    x ∈ (l.foldl (fun h inEdge => h.setEdge inEdge.1 t) g).nodes := by
  induction l generalizing g with
  | nil => exact h
  | cons p l ih => exact ih _ (Graph.nodes_subset_setEdge _ _ _ _ h)

theorem edges_subset_foldl_setEdge (l : List (Nat × Nat)) (t : Nat) (g : Graph)
    (e : Nat × Nat) (h : e ∈ g.edges) :
    e ∈ (l.foldl (fun h inEdge => h.setEdge inEdge.1 t) g).edges := by
  induction l generalizing g with
  | nil => exact h
  | cons p l ih => exact ih _ (Graph.edges_subset_setEdge _ _ _ _ h)

theorem mem_edges_foldl_setEdge : ∀ (l : List (Nat × Nat)) (t : Nat) (g : Graph)
    (p : Nat × Nat), p ∈ l →
    (p.1, t) ∈ (l.foldl (fun h inEdge => h.setEdge inEdge.1 t) g).edges := by
  intro l t
  induction l with
  | nil => intro g p hp; cases hp
  | cons q l ih =>
    intro g p hp
    rw [List.foldl_cons]
    rcases List.mem_cons.mp hp with h | h
    · subst h
      exact edges_subset_foldl_setEdge _ _ _ _ (Graph.mem_edges_setEdge_self _ _ _)
    · exact ih _ _ h

theorem mem_edges_of_foldl_setEdge (l : List (Nat × Nat)) (t : Nat) (g : Graph)
    (e : Nat × Nat) (h : e ∈ (l.foldl (fun h inEdge => h.setEdge inEdge.1 t) g).edges) :
    e ∈ g.edges ∨ ∃ p ∈ l, e = (p.1, t) := by
  induction l generalizing g with
  | nil => exact Or.inl h
  | cons q l ih =>
    rcases ih _ h with h | ⟨p, hp, he⟩
    · rcases Graph.mem_edges_of_setEdge _ _ _ _ h with h | h
      · exact Or.inl h
      · exact Or.inr ⟨q, List.mem_cons_self _ _, h⟩
    · exact Or.inr ⟨p, List.mem_cons_of_mem _ hp, he⟩

theorem mem_nodes_cleanUpStep (g : Graph) (n : EnrichedSqlNode) (x : Nat)
    (hx : x ≠ n.nodeId) (h : x ∈ g.nodes) : x ∈ (cleanUpStep g n).nodes := by
  unfold cleanUpStep
  cases hin : g.inEdges n.nodeId with
  | none => exact h
  | some inEdges =>
    cases hout : g.outEdges n.nodeId with
    | none => exact h
    | some targets =>
      cases targets with
      | nil => exact h
      | cons target rest =>
        exact Graph.nodes_removeNode _ _ _ hx (nodes_subset_foldl_setEdge _ _ _ _ h)

theorem mem_nodes_generateGraph (edges : List EnrichedSqlEdge) (nodes : List EnrichedSqlNode)
    (x : Nat) (h : x ∈ nodes.map (fun n => n.nodeId)) : x ∈ (generateGraph edges nodes).nodes := by
  unfold generateGraph
  have base : ∀ (ns : List EnrichedSqlNode) (g : Graph),
      x ∈ ns.map (fun n => n.nodeId) ∨ x ∈ g.nodes →
      x ∈ (ns.foldl (fun g n => g.setNode n.nodeId) g).nodes := by
    intro ns
    induction ns with
    | nil =>
      intro g h
      rcases h with h | h
      · cases h
      · exact h
    | cons n ns ih =>
      intro g h
      rw [List.foldl_cons]
      rcases h with h | h
      · rw [List.map_cons] at h
        rcases List.mem_cons.mp h with h | h
        · subst h; exact ih _ (Or.inr (Graph.mem_nodes_setNode_self _ _))
        · exact ih _ (Or.inl h)
      · exact ih _ (Or.inr (Graph.nodes_subset_setNode _ _ _ h))
  have step : ∀ (es : List EnrichedSqlEdge) (g : Graph), x ∈ g.nodes →
      x ∈ (es.foldl (fun g e => g.setEdge e.fromId e.toId) g).nodes := by
    intro es
    induction es with
    | nil => intro g h; exact h
    | cons e es ih => intro g h; exact ih _ (Graph.nodes_subset_setEdge _ _ _ _ h)
  exact step _ _ (base _ _ (Or.inl h))

theorem mem_nodes_foldl_cleanUpStep (L : List EnrichedSqlNode) (g : Graph) (x : Nat)
    (hmem : ∀ n ∈ L, n.nodeId ≠ x) (hg : x ∈ g.nodes) :
    x ∈ (L.foldl cleanUpStep g).nodes := by
  induction L generalizing g with
  | nil => exact hg
  | cons n L ih =>
    rw [List.foldl_cons]
    exact ih _ (fun m hm => hmem m (List.mem_cons_of_mem _ hm))
      (mem_nodes_cleanUpStep _ _ _ (fun h => hmem n (List.mem_cons_self _ _) h.symm) hg)

theorem mem_nodes_cleanUpContractedGraph (edges : List EnrichedSqlEdge)
    (allNodes visibleNodes : List EnrichedSqlNode) (x : Nat)
    (hVN : x ∈ allNodes.map (fun n => n.nodeId))
    (hx : x ∈ visibleNodes.map (fun n => n.nodeId)) :
    x ∈ (cleanUpContractedGraph edges allNodes visibleNodes).nodes := by
  show x ∈ ((allNodes.filter
      (fun node => !((visibleNodes.map (fun node => node.nodeId)).contains node.nodeId))).foldl
      cleanUpStep (generateGraph edges allNodes)).nodes
  refine mem_nodes_foldl_cleanUpStep _ _ _ ?_ (mem_nodes_generateGraph edges allNodes x hVN)
  intro n hn heq
  have h2 := (List.mem_filter.mp hn).2
  rw [Bool.not_eq_true'] at h2
  rw [heq] at h2
  have h3 : (visibleNodes.map (fun node => node.nodeId)).contains x = true := by
    show (visibleNodes.map (fun node => node.nodeId)).elem x = true
    exact List.elem_iff.mpr hx
  rw [h3] at h2
  cases h2

/-- C1: every edge returned by `cleanUpDAG` has both endpoints among the
visible node ids, and (provided the visible nodes are among the nodes the DAG
was built over) no visible node is removed by the contraction: every visible
id is still a node of the contracted graph the output edges are read from. -/
theorem c1_cleanUpDAG_endpoints_visible (edges : List EnrichedSqlEdge)
    (allNodes visibleNodes : List EnrichedSqlNode) :
    (∀ e ∈ cleanUpDAG edges allNodes visibleNodes,
        e.fromId ∈ visibleNodes.map (fun n => n.nodeId)
          ∧ e.toId ∈ visibleNodes.map (fun n => n.nodeId))
    ∧ ((∀ id ∈ visibleNodes.map (fun n => n.nodeId), id ∈ allNodes.map (fun n => n.nodeId)) →
        ∀ id ∈ visibleNodes.map (fun n => n.nodeId),
          id ∈ (cleanUpContractedGraph edges allNodes visibleNodes).nodes) := by
  constructor
  · intro e he
    simp only [cleanUpDAG] at he
    rcases List.mem_filter.mp he with ⟨_, hp⟩
    simp only [Bool.and_eq_true] at hp
    rcases hp with ⟨h2, h1⟩
    constructor
    · exact List.elem_iff.mp h1
    · exact List.elem_iff.mp h2
  · intro hsub id hid
    exact mem_nodes_cleanUpContractedGraph _ _ _ _ (hsub id hid) hid

theorem c1_cleanUpDAG_endpoints_visible_witness :
    (∀ e ∈ cleanUpDAG [⟨0, 1⟩, ⟨1, 2⟩]
        [{ nodeId := 0 }, { nodeId := 1 }, { nodeId := 2 }]
        [{ nodeId := 0 }, { nodeId := 2 }],
        e.fromId ∈ ([{ nodeId := 0 }, { nodeId := 2 }] : List EnrichedSqlNode).map (fun n => n.nodeId)
          ∧ e.toId ∈ ([{ nodeId := 0 }, { nodeId := 2 }] : List EnrichedSqlNode).map (fun n => n.nodeId))
    ∧ (∀ id ∈ ([{ nodeId := 0 }, { nodeId := 2 }] : List EnrichedSqlNode).map (fun n => n.nodeId),
        id ∈ (cleanUpContractedGraph [⟨0, 1⟩, ⟨1, 2⟩]
          [{ nodeId := 0 }, { nodeId := 1 }, { nodeId := 2 }]
          [{ nodeId := 0 }, { nodeId := 2 }]).nodes) :=
  ⟨(c1_cleanUpDAG_endpoints_visible _ _ _).1,
   (c1_cleanUpDAG_endpoints_visible _ _ _).2 (by decide)⟩

theorem Graph.inEdges_eq_filter (g : Graph) (v : Nat) (l : List (Nat × Nat))
    (h : g.inEdges v = some l) : l = g.edges.filter (fun e => e.2 == v) := by
  unfold Graph.inEdges at h
  split at h
  · exact (Option.some.inj h).symm
  · cases h

/-- C5: per non-visible node, the contraction step behaves as specified.  A
node with no outgoing edge is skipped, and — its id not being visible — no
edge touching it survives into the `cleanUpDAG` output, so it and its incoming
edges are dropped.  A node with at least one outgoing edge has every incoming
edge rewired to the target of its first outgoing edge and is deleted; any edge
of the resulting graph either already existed or is such a rewiring onto that
first target, so no other outgoing edge is ever used. -/
theorem c5_cleanUpStep_rewires_to_first_target (g : Graph) (node : EnrichedSqlNode) :
    (g.outEdges node.nodeId = some [] → cleanUpStep g node = g)
    ∧ (∀ edges allNodes visibleNodes,
        node.nodeId ∉ visibleNodes.map (fun n => n.nodeId) →
        ∀ e ∈ cleanUpDAG edges allNodes visibleNodes,
          e.fromId ≠ node.nodeId ∧ e.toId ≠ node.nodeId)
    ∧ (∀ inEdges target rest, g.inEdges node.nodeId = some inEdges →
        g.outEdges node.nodeId = some (target :: rest) →
        (∀ p ∈ inEdges, p.1 ≠ node.nodeId → target.2 ≠ node.nodeId →
            (p.1, target.2) ∈ (cleanUpStep g node).edges)
        ∧ (∀ e ∈ (cleanUpStep g node).edges,
            e ∈ g.edges ∨ ((e.1, node.nodeId) ∈ g.edges ∧ e.2 = target.2))
        ∧ node.nodeId ∉ (cleanUpStep g node).nodes) := by
  refine ⟨?_, ?_, ?_⟩
  · intro hout
    unfold cleanUpStep
    cases hin : g.inEdges node.nodeId with
    | none => rfl
    | some inEdges => rw [hout]
  · intro edges allNodes visibleNodes hnv e he
    rcases (c1_cleanUpDAG_endpoints_visible edges allNodes visibleNodes).1 e he with ⟨h1, h2⟩
    constructor
    · intro heq; exact hnv (heq ▸ h1)
    · intro heq; exact hnv (heq ▸ h2)
  · intro inEdges target rest hin hout
    have hstep : cleanUpStep g node =
        (inEdges.foldl (fun h inEdge => h.setEdge inEdge.1 target.2) g).removeNode node.nodeId := by
      unfold cleanUpStep
      rw [hin, hout]
    refine ⟨?_, ?_, ?_⟩
    · intro p hp hp1 ht2
      rw [hstep]
      exact Graph.mem_edges_removeNode _ _ _
        (mem_edges_foldl_setEdge _ _ _ _ hp) hp1 ht2
    · intro e he
      rw [hstep] at he
      have he2 := Graph.edges_subset_removeNode _ _ _ he
      rcases mem_edges_of_foldl_setEdge _ _ _ _ he2 with h | ⟨p, hp, hep⟩
      · exact Or.inl h
      · right
        have hfilter := Graph.inEdges_eq_filter g node.nodeId inEdges hin
        rw [hfilter] at hp
        rcases List.mem_filter.mp hp with ⟨hpg, hp2⟩
        have hp2' : p.2 = node.nodeId := by simpa using hp2
        subst hep
        constructor
        · show (p.1, node.nodeId) ∈ g.edges
          rw [← hp2']
          exact hpg
        · rfl
    · rw [hstep]
      exact Graph.not_mem_nodes_removeNode_self _ _

theorem c5_cleanUpStep_rewires_to_first_target_witness :
    (cleanUpStep ⟨[0, 5], [(0, 5)]⟩ { nodeId := 5 } = ⟨[0, 5], [(0, 5)]⟩)
    ∧ (∀ e ∈ cleanUpDAG [⟨0, 5⟩] [{ nodeId := 0 }, { nodeId := 5 }] [{ nodeId := 0 }],
        e.fromId ≠ ({ nodeId := 5 } : EnrichedSqlNode).nodeId
          ∧ e.toId ≠ ({ nodeId := 5 } : EnrichedSqlNode).nodeId)
    ∧ ((1, 7) ∈ (cleanUpStep ⟨[1, 2, 7], [(1, 2), (2, 7), (2, 9)]⟩ { nodeId := 2 }).edges
        ∧ (∀ e ∈ (cleanUpStep ⟨[1, 2, 7], [(1, 2), (2, 7), (2, 9)]⟩ { nodeId := 2 }).edges,
            e ∈ [(1, 2), (2, 7), (2, 9)]
              ∨ ((e.1, 2) ∈ [((1 : Nat), (2 : Nat)), (2, 7), (2, 9)] ∧ e.2 = 7))
        ∧ (2 : Nat) ∉ (cleanUpStep ⟨[1, 2, 7], [(1, 2), (2, 7), (2, 9)]⟩ { nodeId := 2 }).nodes) := by
  refine ⟨?_, ?_, ?_⟩
  · exact (c5_cleanUpStep_rewires_to_first_target ⟨[0, 5], [(0, 5)]⟩ { nodeId := 5 }).1 (by decide)
  · exact fun e he =>
      (c5_cleanUpStep_rewires_to_first_target ⟨[0, 5], [(0, 5)]⟩ { nodeId := 5 }).2.1
        [⟨0, 5⟩] [{ nodeId := 0 }, { nodeId := 5 }] [{ nodeId := 0 }] (by decide) e he
  · have h := (c5_cleanUpStep_rewires_to_first_target ⟨[1, 2, 7], [(1, 2), (2, 7), (2, 9)]⟩
      { nodeId := 2 }).2.2 [(1, 2)] (2, 7) [(2, 9)] (by decide) (by decide)
    exact ⟨h.1 (1, 2) (by decide) (by decide) (by decide), h.2.1, h.2.2⟩

/-- C8: exchange split metrics are computed exactly for nodes literally named
"Exchange" (any other name, aliases included, gets none); the write duration
is the shuffle-write-time metric defaulting to 0, the read duration the sum of
the fetch-wait-time, remote-request-duration and remote-merged-request-duration
metrics each defaulting to 0, and the total duration is their sum, for all
metric inputs. -/
theorem c8_calcExchangeMetrics_split (nodeName : String) (metrics : List EnrichedSqlMetric) :
    (∀ em, calcExchangeMetrics nodeName metrics = some em →
        nodeName = "Exchange"
        ∧ em.writeDuration = (getMetricDuration "shuffle write time" metrics).getD (some 0)
        ∧ em.readDuration =
            jadd (jadd ((getMetricDuration "fetch wait time" metrics).getD (some 0))
                       ((getMetricDuration "remote reqs duration" metrics).getD (some 0)))
                 ((getMetricDuration "remote merged reqs duration" metrics).getD (some 0))
        ∧ em.duration = jadd em.writeDuration em.readDuration)
    ∧ (nodeName ≠ "Exchange" → calcExchangeMetrics nodeName metrics = none) := by
  by_cases h : nodeName = "Exchange"
  · subst h
    constructor
    · intro em hem
      have hval : calcExchangeMetrics "Exchange" metrics =
          some { writeDuration := (getMetricDuration "shuffle write time" metrics).getD (some 0),
                 readDuration :=
                   jadd (jadd ((getMetricDuration "fetch wait time" metrics).getD (some 0))
                              ((getMetricDuration "remote reqs duration" metrics).getD (some 0)))
                        ((getMetricDuration "remote merged reqs duration" metrics).getD (some 0)),
                 duration :=
                   jadd ((getMetricDuration "shuffle write time" metrics).getD (some 0))
                     (jadd (jadd ((getMetricDuration "fetch wait time" metrics).getD (some 0))
                                 ((getMetricDuration "remote reqs duration" metrics).getD (some 0)))
                          ((getMetricDuration "remote merged reqs duration" metrics).getD (some 0))) } :=
        rfl
      rw [hval] at hem
      cases Option.some.inj hem
      exact ⟨rfl, rfl, rfl, rfl⟩
    · intro h; exact absurd rfl h
  · have hnone : calcExchangeMetrics nodeName metrics = none := by
      unfold calcExchangeMetrics
      have hb : (nodeName == "Exchange") = false := by
        simpa using h
      rw [hb]
      rfl
    constructor
    · intro em hem
      rw [hnone] at hem
      cases hem
    · intro _; exact hnone

theorem c8_calcExchangeMetrics_split_witness :
    ("Exchange" = "Exchange"
      ∧ ({ writeDuration := some 2000, readDuration := some 100, duration := some 2100 } :
            ExchangeMetrics).writeDuration =
          (getMetricDuration "shuffle write time"
            [⟨"shuffle write time", "2 s"⟩, ⟨"fetch wait time", "100"⟩]).getD (some 0)
      ∧ ({ writeDuration := some 2000, readDuration := some 100, duration := some 2100 } :
            ExchangeMetrics).readDuration =
          jadd (jadd ((getMetricDuration "fetch wait time"
                  [⟨"shuffle write time", "2 s"⟩, ⟨"fetch wait time", "100"⟩]).getD (some 0))
                ((getMetricDuration "remote reqs duration"
                  [⟨"shuffle write time", "2 s"⟩, ⟨"fetch wait time", "100"⟩]).getD (some 0)))
            ((getMetricDuration "remote merged reqs duration"
                  [⟨"shuffle write time", "2 s"⟩, ⟨"fetch wait time", "100"⟩]).getD (some 0))
      ∧ ({ writeDuration := some 2000, readDuration := some 100, duration := some 2100 } :
            ExchangeMetrics).duration =
          jadd ({ writeDuration := some 2000, readDuration := some 100, duration := some 2100 } :
              ExchangeMetrics).writeDuration
            ({ writeDuration := some 2000, readDuration := some 100, duration := some 2100 } :
              ExchangeMetrics).readDuration)
    ∧ calcExchangeMetrics "GpuColumnarExchange"
        [⟨"shuffle write time", "2 s"⟩, ⟨"fetch wait time", "100"⟩] = none :=
  ⟨(c8_calcExchangeMetrics_split "Exchange"
      [⟨"shuffle write time", "2 s"⟩, ⟨"fetch wait time", "100"⟩]).1
      { writeDuration := some 2000, readDuration := some 100, duration := some 2100 } (by decide),
   (c8_calcExchangeMetrics_split "GpuColumnarExchange"
      [⟨"shuffle write time", "2 s"⟩, ⟨"fetch wait time", "100"⟩]).2 (by decide)⟩

/-- C10: a node named "CometFilter" with a plan description is parsed by the
Filter parser — the first matching case group of the dispatch wins, so the
later "CometFilter" label in the Project group is unreachable and the result
is never a Project plan. -/
theorem c10_parseNodePlan_cometFilter_is_filter (node : EnrichedSqlNode) (plan : SQLNodePlan)
    (h : node.nodeName = "CometFilter") :
    parseNodePlan node plan = some (.filterPlan (parseFilter plan.planDescription))
    ∧ ∀ p, parseNodePlan node plan ≠ some (.project p) := by
  have hval : parseNodePlan node plan = some (.filterPlan (parseFilter plan.planDescription)) := by
    unfold parseNodePlan
    rw [h]
    rfl
  refine ⟨hval, ?_⟩
  intro p hp
  rw [hval] at hp
  cases Option.some.inj hp

theorem c10_parseNodePlan_cometFilter_is_filter_witness :
    parseNodePlan { nodeId := 3, nodeName := "CometFilter" }
        { id := 3, planDescription := "CometFilter (isnotnull(x))" } =
      some (.filterPlan (parseFilter "CometFilter (isnotnull(x))"))
    ∧ ∀ p, parseNodePlan { nodeId := 3, nodeName := "CometFilter" }
        { id := 3, planDescription := "CometFilter (isnotnull(x))" } ≠ some (.project p) :=
  c10_parseNodePlan_cometFilter_is_filter _ _ rfl

/-- C6: for a join node named BroadcastHashJoin, SortMergeJoin or
ShuffleHashJoin with exactly two incoming edges whose upstream row counts both
resolve, with maxIn the maximum of the two input row counts: a single metric
is emitted — the one-decimal "join rows increase ratio" suffixed "X" when the
ratio exceeds 1, and otherwise the two-decimal "join rows filtered" equal to
percentage(outputRows, maxIn) suffixed "%"; a zero maxIn makes the ratio 0, so
the filtered branch is taken and the emitted value is "0.00%", never an
error. -/
theorem c6_addJoinMetrics_ratio_branches (node : EnrichedSqlNode)
    (updatedMetrics : List EnrichedSqlMetric) (graph : Graph)
    (allNodes : List EnrichedSqlNode) (e1 e2 : Nat × Nat) (rows0 rows1 out : ℚ)
    (hname : node.nodeName = "BroadcastHashJoin" ∨ node.nodeName = "SortMergeJoin"
      ∨ node.nodeName = "ShuffleHashJoin")
    (hin : graph.inEdges node.nodeId = some [e1, e2])
    (h1 : resolveJoinInputRows graph allNodes e1 = some rows0)
    (h2 : resolveJoinInputRows graph allNodes e2 = some rows1)
    (hout : getRowsFromMetrics updatedMetrics = some out) :
    (addJoinMetrics node updatedMetrics graph allNodes =
      (if (if max rows0 rows1 ≠ 0 then out / max rows0 rows1 else 0) > 1 then
         some [{ name := "join rows increase ratio",
                 value := toFixed 1 (if max rows0 rows1 ≠ 0 then out / max rows0 rows1 else 0) ++ "X" }]
       else
         some [{ name := "join rows filtered",
                 value := toFixed 2 (calculatePercentage out (max rows0 rows1)) ++ "%" }]))
    ∧ (max rows0 rows1 = 0 →
        addJoinMetrics node updatedMetrics graph allNodes =
          some [{ name := "join rows filtered", value := "0.00%" }]) := by
  have hmain : addJoinMetrics node updatedMetrics graph allNodes =
      (if (if max rows0 rows1 ≠ 0 then out / max rows0 rows1 else 0) > 1 then
         some [{ name := "join rows increase ratio",
                 value := toFixed 1 (if max rows0 rows1 ≠ 0 then out / max rows0 rows1 else 0) ++ "X" }]
       else
         some [{ name := "join rows filtered",
                 value := toFixed 2 (calculatePercentage out (max rows0 rows1)) ++ "%" }]) := by
    rcases hname with h | h | h <;>
      (unfold addJoinMetrics
       rw [h]
       simp only [hin, hout]
       simp only [List.map_cons, List.map_nil, List.filterMap]
       rw [h1, h2]
       norm_num)
  refine ⟨hmain, ?_⟩
  intro hzero
  rw [hmain, hzero]
  have hpz : calculatePercentage out 0 = 0 := by
    unfold calculatePercentage
    norm_num
  norm_num [hpz]
  decide

theorem c6_addJoinMetrics_ratio_branches_witness :
    addJoinMetrics joinDemoNode joinDemoNode.metrics
        (generateGraph joinDemoEdges joinDemoNodes) joinDemoNodes =
      some [{ name := "join rows filtered", value := "25.00%" }] := by
  have h := (c6_addJoinMetrics_ratio_branches joinDemoNode joinDemoNode.metrics
      (generateGraph joinDemoEdges joinDemoNodes) joinDemoNodes (2, 4) (3, 4) 100 200 50
      (Or.inr (Or.inl rfl)) (by decide) (by decide) (by decide) (by decide)).1
  rw [h]
  decide

/-- C7 (amended): for a node whose name contains "Filter" (or whose enriched
name is "Distinct"): when no upstream ancestor exposing a row-count metric is
found, input rows count as 0 and no "Rows Filtered" metric is emitted; when an
ancestor is found, the metric is emitted only provided the resolved input rows
are nonzero and the node's own metrics contain a parseable "rows" metric — in
that case a single "Rows Filtered" metric equal to
percentage(inputRows − outputRows, inputRows), two decimals, suffixed "%", is
appended while the node's original metrics are preserved. -/
theorem c7_addFilterRatioMetric_amended (node : EnrichedSqlNode)
    (metrics : List EnrichedSqlMetric) (graph : Graph) (allNodes : List EnrichedSqlNode)
    (hcond : (strIncludes node.nodeName "Filter" || node.enrichedName == "Distinct") = true) :
    (findLastNodeWithInputRows node graph allNodes = none →
        addFilterRatioMetric node metrics graph allNodes = none)
    ∧ (∀ inputNode (r : ℚ) m (out : ℚ),
        findLastNodeWithInputRows node graph allNodes = some inputNode →
        getRowsFromMetrics inputNode.metrics = some r → r ≠ 0 →
        metrics.find? (fun mm => strIncludes mm.name "rows") = some m →
        parseNumQ (stripCommas m.value) = some out →
        addFilterRatioMetric node metrics graph allNodes =
          some { name := "Rows Filtered",
                 value := toFixed 2 (calculatePercentage (r - out) r) ++ "%" }
        ∧ (strIncludes node.nodeName "Filter" = true →
            updateNodeMetrics node metrics graph allNodes =
              metrics ++ [{ name := "Rows Filtered",
                            value := toFixed 2 (calculatePercentage (r - out) r) ++ "%" }])) := by
  constructor
  · intro hfind
    unfold addFilterRatioMetric
    rw [hcond]
    simp only [hfind]
    rfl
  · intro inputNode r m out hfind hrows hr hm hparse
    have hfr : addFilterRatioMetric node metrics graph allNodes =
        some { name := "Rows Filtered",
               value := toFixed 2 (calculatePercentage (r - out) r) ++ "%" } := by
      unfold addFilterRatioMetric
      rw [hcond]
      simp only [hfind, hrows]
      have hrb : (r == 0) = false := beq_eq_false_iff_ne.mpr hr
      rw [hrb]
      simp only [hm, hparse]
      rfl
    refine ⟨hfr, ?_⟩
    intro hFilter
    have hnej : ∀ s : String, strIncludes s "Filter" = true →
        ∀ t ∈ ["BroadcastNestedLoopJoin", "CartesianProduct", "BroadcastHashJoin",
               "SortMergeJoin", "ShuffleHashJoin"], (s == t) = false := by
      intro s hs t ht
      cases hb : s == t
      · rfl
      · exfalso
        have hst : s = t := eq_of_beq hb
        subst hst
        fin_cases ht <;> exact absurd hs (by decide)
    have h1 := hnej node.nodeName hFilter "BroadcastNestedLoopJoin" (by decide)
    have h2 := hnej node.nodeName hFilter "CartesianProduct" (by decide)
    have h3 := hnej node.nodeName hFilter "BroadcastHashJoin" (by decide)
    have h4 := hnej node.nodeName hFilter "SortMergeJoin" (by decide)
    have h5 := hnej node.nodeName hFilter "ShuffleHashJoin" (by decide)
    have hcross : addCrossJoinFilterRatioMetric node (calcNodeMetrics node.type metrics)
        graph allNodes = none := by
      unfold addCrossJoinFilterRatioMetric
      rw [h1, h2]
      rfl
    have hjoin : addJoinMetrics node (calcNodeMetrics node.type metrics)
        graph allNodes = none := by
      unfold addJoinMetrics
      rw [h3, h4, h5]
      rfl
    unfold updateNodeMetrics
    simp only [calcNodeMetrics] at hfr hcross hjoin ⊢
    rw [hfr, hcross, hjoin]
    simp

theorem c7_addFilterRatioMetric_amended_witness :
    addFilterRatioMetric filterDemoNode filterDemoNode.metrics
        (generateGraph filterDemoEdges filterDemoNodes) filterDemoNodes =
      some { name := "Rows Filtered", value := "10.00%" }
    ∧ updateNodeMetrics filterDemoNode filterDemoNode.metrics
        (generateGraph filterDemoEdges filterDemoNodes) filterDemoNodes =
      filterDemoNode.metrics ++ [{ name := "Rows Filtered", value := "10.00%" }] := by
  have h := (c7_addFilterRatioMetric_amended filterDemoNode filterDemoNode.metrics
      (generateGraph filterDemoEdges filterDemoNodes) filterDemoNodes (by decide)).2
      filterDemoScan 1000 ⟨"number of output rows", "900"⟩ 900
      (by decide) (by decide) (by norm_num) (by decide) (by decide)
  rcases h with ⟨h1, h2⟩
  constructor
  · rw [h1]
    decide
  · rw [h2 (by decide)]
    decide

/-- C7 counterexample: the claim's "otherwise" branch fails on the code — here
the upstream walk does find an ancestor exposing a row count (the scan with
1,000 rows), yet no "Rows Filtered" metric is emitted, because the filter node
itself has no "rows" metric; the source returns null in that case. -/
theorem c7_addFilterRatioMetric_counterexample :
    findLastNodeWithInputRows filterNoMetricsNode
        (generateGraph filterDemoEdges filterNoMetricsNodes) filterNoMetricsNodes =
      some filterDemoScan
    ∧ getRowsFromMetrics filterDemoScan.metrics = some 1000
    ∧ strIncludes filterNoMetricsNode.nodeName "Filter" = true
    ∧ addFilterRatioMetric filterNoMetricsNode filterNoMetricsNode.metrics
        (generateGraph filterDemoEdges filterNoMetricsNodes) filterNoMetricsNodes = none
    ∧ updateNodeMetrics filterNoMetricsNode filterNoMetricsNode.metrics
        (generateGraph filterDemoEdges filterNoMetricsNodes) filterNoMetricsNodes =
      filterNoMetricsNode.metrics := by
  refine ⟨by decide, by decide, by decide, by decide, by decide⟩

theorem mem_of_getLast?_eq_some {α : Type} {l : List α} {a : α} (h : l.getLast? = some a) :
    a ∈ l := by
  rcases List.mem_getLast?_eq_getLast (show a ∈ l.getLast? from h) with ⟨hne, heq⟩
  rw [heq]
  exact List.getLast_mem hne


theorem forced_output_count (ogn : List EnrichedSqlNode) (last : EnrichedSqlNode)
    (enrich : EnrichedSqlNode → EnrichedSqlNode)
    (htype : ∀ n, (enrich n).type = n.type)
    (hid : ∀ n, (enrich n).nodeId = n.nodeId)
    (hnotout : ∀ n ∈ ogn, ¬(n.type == NodeType.output) = true)
    (hnodup : (ogn.map (fun n => n.nodeId)).Nodup)
    (hidmem : last.nodeId ∈ ogn.map (fun n => n.nodeId)) :
    (((ogn.map (fun node => if node.nodeId == last.nodeId
          then { node with type := NodeType.output } else node)).map enrich).filter
        (fun n => n.type == NodeType.output)).length = 1
    ∧ ∀ n ∈ (ogn.map (fun node => if node.nodeId == last.nodeId
          then { node with type := NodeType.output } else node)).map enrich,
        n.type = NodeType.output → n.nodeId = last.nodeId := by
  constructor
  · have h1 : ∀ (p : EnrichedSqlNode → Bool) (l : List EnrichedSqlNode),
        (l.filter p).length = l.countP p := by
      intro p l
      rw [List.countP_eq_length_filter]
    rw [h1, List.countP_map, List.countP_map]
    have h2 : List.countP
        (((fun n => n.type == NodeType.output) ∘ enrich) ∘
          (fun node => if node.nodeId == last.nodeId
            then { node with type := NodeType.output } else node)) ogn =
        List.countP (fun n => n.nodeId == last.nodeId) ogn := by
      refine List.countP_congr ?_
      intro n hn
      simp only [Function.comp_apply]
      cases hb : n.nodeId == last.nodeId
      · rw [if_neg (by simp), htype]
        have hno := hnotout n hn
        constructor
        · intro h; exact absurd h hno
        · intro h; cases h
      · rw [if_pos rfl, htype]
        simp
    rw [h2]
    have h3 : List.countP (fun n => n.nodeId == last.nodeId) ogn =
        List.countP (fun x => x == last.nodeId) (ogn.map (fun n => n.nodeId)) := by
      rw [List.countP_map]
      rfl
    rw [h3]
    have h4 : List.countP (fun x => x == last.nodeId) (ogn.map (fun n => n.nodeId)) =
        List.count last.nodeId (ogn.map (fun n => n.nodeId)) := rfl
    rw [h4]
    exact List.count_eq_one_of_mem hnodup hidmem
  · intro n hn hout
    rcases List.mem_map.mp hn with ⟨m', hm', rfl⟩
    rcases List.mem_map.mp hm' with ⟨m, hm, rfl⟩
    rw [hid]
    rw [htype] at hout
    revert hout
    cases hb : m.nodeId == last.nodeId
    · intro hout
      exfalso
      rw [if_neg (by simp)] at hout
      have hno := hnotout m hm
      rw [hout] at hno
      exact hno rfl
    · intro _
      rw [if_pos rfl]
      exact eq_of_beq hb

/-- C9: for an execution whose non-codegen node list has no node classified as
output, `calculateSql` succeeds (given the AQE-filtered list is nonempty, as
the claim presupposes by naming its last node) and forces exactly one node to
the output category: the last node after excluding "AdaptiveSparkPlan" and
"ResultQueryStage", so that exactly one node of the result carries the output
category and any output-typed node is that forced node. -/
theorem c9_calculateSql_forces_unique_output (sql : SparkSQL) (plan : Option SQLPlan)
    (icebergCommit : Option IcebergCommitsInfo) (stages : SparkStagesStore) (gen : Nat)
    (last : EnrichedSqlNode)
    (h0 : ((typeEnrichedNodesOf sql plan icebergCommit).filter
        (fun node => !node.isCodegenNode)).filter (fun node => node.type == NodeType.output) = [])
    (hlast : (((typeEnrichedNodesOf sql plan icebergCommit).filter
        (fun node => !node.isCodegenNode)).filter
        (fun node => node.nodeName != "AdaptiveSparkPlan"
          && node.nodeName != "ResultQueryStage")).getLast? = some last)
    (hnodup : (((typeEnrichedNodesOf sql plan icebergCommit).filter
        (fun node => !node.isCodegenNode)).map (fun n => n.nodeId)).Nodup) :
    ∃ r, calculateSql sql plan icebergCommit stages gen = some r
      ∧ (r.nodes.filter (fun n => n.type == NodeType.output)).length = 1
      ∧ ∀ n ∈ r.nodes, n.type = NodeType.output → n.nodeId = last.nodeId := by
  have hnotout : ∀ n ∈ (typeEnrichedNodesOf sql plan icebergCommit).filter
      (fun node => !node.isCodegenNode), ¬(n.type == NodeType.output) = true := by
    intro n hn
    exact List.filter_eq_nil_iff.mp h0 n hn
  have hforce : forceOutputNodes ((typeEnrichedNodesOf sql plan icebergCommit).filter
      (fun node => !node.isCodegenNode)) =
      some (((typeEnrichedNodesOf sql plan icebergCommit).filter
        (fun node => !node.isCodegenNode)).map
          (fun node => if node.nodeId == last.nodeId
            then { node with type := NodeType.output } else node)) := by
    unfold forceOutputNodes
    simp only [h0, hlast, List.length_nil]
    rfl
  have hlastmem : last ∈ (typeEnrichedNodesOf sql plan icebergCommit).filter
      (fun node => !node.isCodegenNode) :=
    List.mem_of_mem_filter (mem_of_getLast?_eq_some hlast)
  have hidmem : last.nodeId ∈ ((typeEnrichedNodesOf sql plan icebergCommit).filter
      (fun node => !node.isCodegenNode)).map (fun n => n.nodeId) :=
    List.mem_map_of_mem _ hlastmem
  unfold calculateSql
  simp only [hforce]
  have hkey := forced_output_count
    ((typeEnrichedNodesOf sql plan icebergCommit).filter (fun node => !node.isCodegenNode)) last
    (fun node => { node with
        metrics := updateNodeMetrics node node.metrics (generateGraph sql.edges sql.nodes)
          (((typeEnrichedNodesOf sql plan icebergCommit).filter
              (fun node => !node.isCodegenNode)).map
            (fun node => if node.nodeId == last.nodeId
              then { node with type := NodeType.output } else node))
        exchangeMetrics := calcExchangeMetrics node.nodeName node.metrics
        exchangeBroadcastDuration := calcBroadcastExchangeDuration node.nodeName node.metrics })
    (fun n => rfl) (fun n => rfl) hnotout hnodup hidmem
  exact ⟨_, rfl, hkey.1, hkey.2⟩

theorem c9_calculateSql_forces_unique_output_witness :
    ∃ r, calculateSql
        { id := 1,
          nodes := [{ nodeId := 0, nodeName := "Filter" }, { nodeId := 1, nodeName := "Coalesce" }],
          edges := [⟨0, 1⟩] } none none () 3 = some r
      ∧ (r.nodes.filter (fun n => n.type == NodeType.output)).length = 1
      ∧ ∀ n ∈ r.nodes, n.type = NodeType.output → n.nodeId = 1 :=
  c9_calculateSql_forces_unique_output
    { id := 1,
      nodes := [{ nodeId := 0, nodeName := "Filter" }, { nodeId := 1, nodeName := "Coalesce" }],
      edges := [⟨0, 1⟩] } none none () 3
    { nodeId := 1, nodeName := "Coalesce", type := NodeType.transformation,
      enrichedName := "Coalesce" }
    (by decide) (by decide) (by decide)

theorem calculateSql_uniqueId (sql : SparkSQL) (plan : Option SQLPlan)
    (icebergCommit : Option IcebergCommitsInfo) (stages : SparkStagesStore) (gen : Nat)
    (r : EnrichedSparkSQL) (h : calculateSql sql plan icebergCommit stages gen = some r) :
    r.uniqueId = gen := by
  simp only [calculateSql] at h
  split at h
  · cases h
  · have := Option.some.inj h
    rw [← this]

theorem foldlM_append_shape {α β : Type} (f : (List α × Nat) → β → Option (List α × Nat))
    (happ : ∀ acc b acc', f acc b = some acc' → ∃ l, acc'.1 = acc.1 ++ l) :
    ∀ (ids : List β) (acc res : List α × Nat),
      List.foldlM f acc ids = some res → ∃ l, res.1 = acc.1 ++ l := by
  intro ids
  induction ids with
  | nil =>
    intro acc res h
    have hres : acc = res := Option.some.inj h
    exact ⟨[], by rw [← hres, List.append_nil]⟩
  | cons b ids ih =>
    intro acc res h
    cases hfb : f acc b with
    | none =>
      rw [List.foldlM_cons, hfb] at h
      cases h
    | some acc1 =>
      rw [List.foldlM_cons, hfb] at h
      have h' : List.foldlM f acc1 ids = some res := h
      rcases ih acc1 res h' with ⟨l, hl⟩
      rcases happ acc b acc1 hfb with ⟨l0, hl0⟩
      exact ⟨l0 ++ l, by rw [hl, hl0, List.append_assoc]⟩

theorem foldlM_mem_of_hit {α β : Type} (f : (List α × Nat) → β → Option (List α × Nat))
    (i : β) (P : α → Prop)
    (happ : ∀ acc b acc', f acc b = some acc' → ∃ l, acc'.1 = acc.1 ++ l)
    (hhit : ∀ acc acc', f acc i = some acc' → ∃ x, P x ∧ x ∈ acc'.1) :
    ∀ (ids : List β) (acc res : List α × Nat), i ∈ ids →
      List.foldlM f acc ids = some res → ∃ x, P x ∧ x ∈ res.1 := by
  intro ids
  induction ids with
  | nil => intro acc res hmem; cases hmem
  | cons b ids ih =>
    intro acc res hmem h
    cases hfb : f acc b with
    | none =>
      rw [List.foldlM_cons, hfb] at h
      cases h
    | some acc1 =>
      rw [List.foldlM_cons, hfb] at h
      have h' : List.foldlM f acc1 ids = some res := h
      by_cases hib : i = b
      · subst hib
        rcases hhit acc acc1 hfb with ⟨x, hPx, hxmem⟩
        rcases foldlM_append_shape f happ ids acc1 res h' with ⟨l, hl⟩
        exact ⟨x, hPx, by rw [hl]; exact List.mem_append_left _ hxmem⟩
      · have hmem' : i ∈ ids := by
          rcases List.mem_cons.mp hmem with hh | hh
          · exact absurd hh hib
          · exact hh
        exact ih acc1 res hmem' h'

theorem processSqlId_append (store : SparkSQLStore) (sqls : List SparkSQL)
    (plans : List SQLPlan) (icebergInfo : IcebergInfo) (stages : SparkStagesStore)
    (acc : List EnrichedSparkSQL × Nat) (id : Nat) (acc' : List EnrichedSparkSQL × Nat)
    (h : processSqlId store sqls plans icebergInfo stages acc id = some acc') :
    ∃ l, acc'.1 = acc.1 ++ l := by
  simp only [processSqlId] at h
  split at h
  · cases h
  · split at h
    · rcases Option.map_eq_some'.mp h with ⟨r, _, hacc'⟩
      exact ⟨[r], by rw [← hacc']⟩
    · split at h
      · rcases Option.map_eq_some'.mp h with ⟨r, _, hacc'⟩
        exact ⟨[r], by rw [← hacc']⟩
      · split at h
        · rcases Option.map_eq_some'.mp h with ⟨r, _, hacc'⟩
          exact ⟨[r], by rw [← hacc']⟩
        · have := Option.some.inj h
          exact ⟨_, by rw [← this]⟩

theorem mem_ids_of_find? (sqls : List SparkSQL) (i : Nat) (newSql : SparkSQL)
    (h : sqls.find? (fun s => s.id == i) = some newSql) :
    i ∈ sqls.map (fun sql => sql.id) := by
  have h1 := List.find?_some h
  have h2 := List.mem_of_find?_eq_some h
  have h3 : newSql.id = i := by simpa using h1
  exact h3 ▸ List.mem_map_of_mem _ h2

theorem calculateSqlStore_some_elim (store : SparkSQLStore) (sqls : List SparkSQL)
    (plans : List SQLPlan) (icebergInfo : IcebergInfo) (stages : SparkStagesStore)
    (gen : Nat) (out : SparkSQLStore)
    (h : calculateSqlStore (some store) sqls plans icebergInfo stages gen = some out) :
    ∃ res, List.foldlM (processSqlId store sqls plans icebergInfo stages)
        (store.sqls.filter
          (fun sql => (sqls.map (fun sql => sql.id)).all (fun i => sql.id < i)), gen)
        (sqls.map (fun sql => sql.id)) = some res
      ∧ out.sqls = res.1 := by
  unfold calculateSqlStore at h
  rcases Option.map_eq_some'.mp h with ⟨res, hres, hout⟩
  exact ⟨res, hres, by rw [← hout]⟩

theorem processSqlId_metric_only (store : SparkSQLStore) (sqls : List SparkSQL)
    (plans : List SQLPlan) (icebergInfo : IcebergInfo) (stages : SparkStagesStore) (i : Nat)
    (newSql currentSql : SparkSQL)
    (hfs : sqls.find? (fun s => s.id == i) = some newSql)
    (hfc : store.sqls.find? (fun s => s.id == i) = some currentSql)
    (hstat : newSql.status = SqlStatus.Running)
    (hcount : currentSql.originalNumOfNodes = newSql.nodes.length) :
    ∀ acc, processSqlId store sqls plans icebergInfo stages acc i =
      some (acc.1 ++ [{ currentSql with
                          duration := newSql.duration
                          failedJobIds := newSql.failedJobIds
                          runningJobIds := newSql.runningJobIds
                          successJobIds := newSql.successJobIds }], acc.2) := by
  intro acc
  simp only [processSqlId, hfs, hfc, hstat, hcount, bne_self_eq_false]
  rfl

theorem processSqlId_terminal (store : SparkSQLStore) (sqls : List SparkSQL)
    (plans : List SQLPlan) (icebergInfo : IcebergInfo) (stages : SparkStagesStore) (i : Nat)
    (newSql currentSql : SparkSQL)
    (hfs : sqls.find? (fun s => s.id == i) = some newSql)
    (hfc : store.sqls.find? (fun s => s.id == i) = some currentSql)
    (hstat : newSql.status = SqlStatus.Completed ∨ newSql.status = SqlStatus.Failed) :
    ∀ acc, processSqlId store sqls plans icebergInfo stages acc i =
      (calculateSql newSql (plans.find? (fun plan => plan.executionId == i))
        (icebergInfo.commitsInfo.find? (fun plan => plan.executionId == i)) stages acc.2).map
        (fun r => (acc.1 ++ [r], acc.2 + 2)) := by
  intro acc
  rcases hstat with h | h <;> simp only [processSqlId, hfs, hfc, h] <;> rfl

theorem processSqlId_restructure (store : SparkSQLStore) (sqls : List SparkSQL)
    (plans : List SQLPlan) (icebergInfo : IcebergInfo) (stages : SparkStagesStore) (i : Nat)
    (newSql currentSql : SparkSQL)
    (hfs : sqls.find? (fun s => s.id == i) = some newSql)
    (hfc : store.sqls.find? (fun s => s.id == i) = some currentSql)
    (hstat : newSql.status = SqlStatus.Running)
    (hcount : currentSql.originalNumOfNodes ≠ newSql.nodes.length) :
    ∀ acc, processSqlId store sqls plans icebergInfo stages acc i =
      (calculateSql newSql (plans.find? (fun plan => plan.executionId == i))
        (icebergInfo.commitsInfo.find? (fun plan => plan.executionId == i)) stages acc.2).map
        (fun r => (acc.1 ++ [r], acc.2 + 2)) := by
  intro acc
  have hb : (currentSql.originalNumOfNodes != newSql.nodes.length) = true := by
    simpa using hcount
  simp only [processSqlId, hfs, hfc, hstat, hb]
  rfl

/-- C3: when `calculateSqlStore` merges a snapshot for an execution whose
stored and new statuses are both Running and whose node count equals the
stored one, the entry it produces for that id is exactly the stored execution
with only duration, failedJobIds, runningJobIds and successJobIds copied from
the snapshot — nodes, parsed plans, categories, filter tiers and both
identities stay exactly as stored. -/
theorem c3_calculateSqlStore_metric_only_update (store : SparkSQLStore)
    (sqls : List SparkSQL) (plans : List SQLPlan) (icebergInfo : IcebergInfo)
    (stages : SparkStagesStore) (gen : Nat) (i : Nat) (newSql currentSql : SparkSQL)
    (out : SparkSQLStore)
    (hfs : sqls.find? (fun s => s.id == i) = some newSql)
    (hfc : store.sqls.find? (fun s => s.id == i) = some currentSql)
    (hcur : currentSql.status = SqlStatus.Running)
    (hnew : newSql.status = SqlStatus.Running)
    (hcount : currentSql.originalNumOfNodes = newSql.nodes.length)
    (hout : calculateSqlStore (some store) sqls plans icebergInfo stages gen = some out) :
    { currentSql with
        duration := newSql.duration
        failedJobIds := newSql.failedJobIds
        runningJobIds := newSql.runningJobIds
        successJobIds := newSql.successJobIds } ∈ out.sqls := by
  rcases calculateSqlStore_some_elim store sqls plans icebergInfo stages gen out hout
    with ⟨res, hres, houts⟩
  rw [houts]
  have hhit : ∀ acc acc',
      processSqlId store sqls plans icebergInfo stages acc i = some acc' →
      ∃ x, (x = { currentSql with
                    duration := newSql.duration
                    failedJobIds := newSql.failedJobIds
                    runningJobIds := newSql.runningJobIds
                    successJobIds := newSql.successJobIds }) ∧ x ∈ acc'.1 := by
    intro acc acc' h
    rw [processSqlId_metric_only store sqls plans icebergInfo stages i newSql currentSql
      hfs hfc hnew hcount acc] at h
    have hacc' := Option.some.inj h
    refine ⟨_, rfl, ?_⟩
    rw [← hacc']
    exact List.mem_append_right _ (List.mem_singleton.mpr rfl)
  rcases foldlM_mem_of_hit (processSqlId store sqls plans icebergInfo stages) i _
    (fun acc b acc' h => processSqlId_append store sqls plans icebergInfo stages acc b acc' h)
    hhit (sqls.map (fun sql => sql.id)) _ res (mem_ids_of_find? sqls i newSql hfs) hres
    with ⟨x, hx, hmem⟩
  rw [← hx]
  exact hmem

theorem c3_calculateSqlStore_metric_only_update_witness :
    ({ storedRunningSameSql with
         duration := 9
         failedJobIds := ([] : List Nat)
         runningJobIds := [7]
         successJobIds := [2] } : EnrichedSparkSQL) ∈ c3OutStore.sqls :=
  c3_calculateSqlStore_metric_only_update ⟨[storedRunningSameSql]⟩ [runningSnapshot] []
    ⟨[]⟩ () 7 1 runningSnapshot storedRunningSameSql c3OutStore
    (by decide) (by decide) rfl rfl (by decide) (Option.some_get _).symm

/-- C2 (amended): the merge branches on the NEW snapshot's status, not the
stored one, so a later batch containing a terminal execution's id re-runs the
full pipeline: the returned store contains, for that id, a freshly computed
execution produced by `calculateSql` whose uniqueId is the freshly generated
identity token it consumed.  A terminal stored execution is kept as-is only
when later batches omit its id. -/
theorem c2_amended_terminal_recompute (store : SparkSQLStore) (sqls : List SparkSQL)
    (plans : List SQLPlan) (icebergInfo : IcebergInfo) (stages : SparkStagesStore)
    (gen : Nat) (i : Nat) (newSql currentSql : SparkSQL) (out : SparkSQLStore)
    (hfs : sqls.find? (fun s => s.id == i) = some newSql)
    (hfc : store.sqls.find? (fun s => s.id == i) = some currentSql)
    (hcur : currentSql.status = SqlStatus.Completed ∨ currentSql.status = SqlStatus.Failed)
    (hnew : newSql.status = SqlStatus.Completed ∨ newSql.status = SqlStatus.Failed)
    (hout : calculateSqlStore (some store) sqls plans icebergInfo stages gen = some out) :
    ∃ g r, calculateSql newSql (plans.find? (fun plan => plan.executionId == i))
        (icebergInfo.commitsInfo.find? (fun plan => plan.executionId == i)) stages g = some r
      ∧ r ∈ out.sqls ∧ r.uniqueId = g := by
  rcases calculateSqlStore_some_elim store sqls plans icebergInfo stages gen out hout
    with ⟨res, hres, houts⟩
  have hhit : ∀ acc acc',
      processSqlId store sqls plans icebergInfo stages acc i = some acc' →
      ∃ x, (∃ g, calculateSql newSql (plans.find? (fun plan => plan.executionId == i))
          (icebergInfo.commitsInfo.find? (fun plan => plan.executionId == i)) stages g = some x
          ∧ x.uniqueId = g) ∧ x ∈ acc'.1 := by
    intro acc acc' h
    rw [processSqlId_terminal store sqls plans icebergInfo stages i newSql currentSql
      hfs hfc hnew acc] at h
    rcases Option.map_eq_some'.mp h with ⟨r, hr, hacc'⟩
    refine ⟨r, ⟨acc.2, hr, calculateSql_uniqueId _ _ _ _ _ _ hr⟩, ?_⟩
    rw [← hacc']
    exact List.mem_append_right _ (List.mem_singleton.mpr rfl)
  rcases foldlM_mem_of_hit (processSqlId store sqls plans icebergInfo stages) i _
    (fun acc b acc' h => processSqlId_append store sqls plans icebergInfo stages acc b acc' h)
    hhit (sqls.map (fun sql => sql.id)) _ res (mem_ids_of_find? sqls i newSql hfs) hres
    with ⟨x, ⟨g, hg, hu⟩, hmem⟩
  exact ⟨g, x, hg, houts ▸ hmem, hu⟩

theorem c2_amended_terminal_recompute_witness :
    ∃ g r, calculateSql completedSnapshot none none () g = some r
      ∧ r ∈ c2OutStore.sqls ∧ r.uniqueId = g :=
  c2_amended_terminal_recompute ⟨[storedCompletedSql]⟩ [completedSnapshot] [] ⟨[]⟩ () 7 1
    completedSnapshot storedCompletedSql c2OutStore (by decide) (by decide)
    (Or.inl rfl) (Or.inl rfl) (Option.some_get _).symm

/-- C2 counterexample: a stored Completed execution (uniqueId 0, duration 5)
is not left unchanged by a later snapshot batch containing its id — the
returned store holds a recomputed execution carrying the fresh identity token
7 and the snapshot's duration 9, so reclassification, recomputation and a
change of identity all happen for a terminal execution. -/
theorem c2_terminal_not_untouched_counterexample :
    storedCompletedSql.status = SqlStatus.Completed
    ∧ storedCompletedSql.uniqueId = 0
    ∧ storedCompletedSql.duration = 5
    ∧ calculateSqlStore (some ⟨[storedCompletedSql]⟩) [completedSnapshot] [] ⟨[]⟩ () 7 =
        some c2OutStore
    ∧ c2OutStore.sqls.map (fun q => (q.uniqueId, q.duration)) = [(7, 9)] :=
  ⟨rfl, rfl, rfl, (Option.some_get _).symm, by decide⟩

/-- C4 (amended): when `calculateSqlStore` receives a Running snapshot whose
node count differs from the stored `originalNumOfNodes`, the full pipeline
re-runs, but the stable identity is NOT retained: the recomputed execution in
the returned store carries a freshly generated uniqueId (the generator token
`calculateSql` consumed), not the uniqueId assigned at first
materialization. -/
theorem c4_amended_restructure_fresh_identity (store : SparkSQLStore)
    (sqls : List SparkSQL) (plans : List SQLPlan) (icebergInfo : IcebergInfo)
    (stages : SparkStagesStore) (gen : Nat) (i : Nat) (newSql currentSql : SparkSQL)
    (out : SparkSQLStore)
    (hfs : sqls.find? (fun s => s.id == i) = some newSql)
    (hfc : store.sqls.find? (fun s => s.id == i) = some currentSql)
    (hcur : currentSql.status = SqlStatus.Running)
    (hnew : newSql.status = SqlStatus.Running)
    (hcount : currentSql.originalNumOfNodes ≠ newSql.nodes.length)
    (hout : calculateSqlStore (some store) sqls plans icebergInfo stages gen = some out) :
    ∃ g r, calculateSql newSql (plans.find? (fun plan => plan.executionId == i))
        (icebergInfo.commitsInfo.find? (fun plan => plan.executionId == i)) stages g = some r
      ∧ r ∈ out.sqls ∧ r.uniqueId = g := by
  rcases calculateSqlStore_some_elim store sqls plans icebergInfo stages gen out hout
    with ⟨res, hres, houts⟩
  have hhit : ∀ acc acc',
      processSqlId store sqls plans icebergInfo stages acc i = some acc' →
      ∃ x, (∃ g, calculateSql newSql (plans.find? (fun plan => plan.executionId == i))
          (icebergInfo.commitsInfo.find? (fun plan => plan.executionId == i)) stages g = some x
          ∧ x.uniqueId = g) ∧ x ∈ acc'.1 := by
    intro acc acc' h
    rw [processSqlId_restructure store sqls plans icebergInfo stages i newSql currentSql
      hfs hfc hnew hcount acc] at h
    rcases Option.map_eq_some'.mp h with ⟨r, hr, hacc'⟩
    refine ⟨r, ⟨acc.2, hr, calculateSql_uniqueId _ _ _ _ _ _ hr⟩, ?_⟩
    rw [← hacc']
    exact List.mem_append_right _ (List.mem_singleton.mpr rfl)
  rcases foldlM_mem_of_hit (processSqlId store sqls plans icebergInfo stages) i _
    (fun acc b acc' h => processSqlId_append store sqls plans icebergInfo stages acc b acc' h)
    hhit (sqls.map (fun sql => sql.id)) _ res (mem_ids_of_find? sqls i newSql hfs) hres
    with ⟨x, ⟨g, hg, hu⟩, hmem⟩
  exact ⟨g, x, hg, houts ▸ hmem, hu⟩

theorem c4_amended_restructure_fresh_identity_witness :
    ∃ g r, calculateSql runningSnapshot none none () g = some r
      ∧ r ∈ c4OutStore.sqls ∧ r.uniqueId = g :=
  c4_amended_restructure_fresh_identity ⟨[storedRunningOneNodeSql]⟩ [runningSnapshot] []
    ⟨[]⟩ () 7 1 runningSnapshot storedRunningOneNodeSql c4OutStore (by decide) (by decide)
    rfl rfl (by decide) (Option.some_get _).symm

/-- C4 counterexample: a Running execution stored with uniqueId 0 and node
count 1 receives a Running snapshot with 2 nodes; the pipeline re-runs but the
returned execution carries the freshly generated uniqueId 7, not the stored
identity 0 — the uniqueId assigned at first materialization is not
retained. -/
theorem c4_identity_not_retained_counterexample :
    storedRunningOneNodeSql.uniqueId = 0
    ∧ storedRunningOneNodeSql.originalNumOfNodes = 1
    ∧ runningSnapshot.nodes.length = 2
    ∧ calculateSqlStore (some ⟨[storedRunningOneNodeSql]⟩) [runningSnapshot] [] ⟨[]⟩ () 7 =
        some c4OutStore
    ∧ c4OutStore.sqls.map (fun q => q.uniqueId) = [7] :=
  ⟨rfl, rfl, rfl, (Option.some_get _).symm, by decide⟩
